import Mathlib

/-!
# SeaweedFS operator: the create-or-reconcile primitive and the reconcile sequencer

A shallow embedding of `controllers/controller_util.go`, `controllers/seaweed_controller.go`
and `controllers/controller_gateway.go`.

Conventions of the embedding
* Go pointers to objects are values; `DeepCopyObject` is the identity.
* A Go `map[string]V` is `GoMap V`: the nil map or a list of entries read by first match.
* A Go slice is a `List`; the nil slice and the empty slice are both `[]`.
* A Go `(T, error)` result is `Except Err T`; a runtime panic is the error `Err.panic`.
* The Kubernetes client, `encoding/json` and the role ensurers whose source is not part of
  the controller files are parameters of the definitions that call them.
-/

namespace SeaweedOperator

/-! ## Errors -/

/-- The `metav1.StatusReason` values the controller distinguishes. -/
inductive StatusReason
  | AlreadyExists
  | NotFound
  | Conflict
  | Unknown
  deriving DecidableEq, Repr

/-- A Go `error` value: an API status error, any other error, or a runtime panic. -/
inductive Err
  | status (reason : StatusReason) (msg : String)
  | other (msg : String)
  | panic (msg : String)
  deriving DecidableEq, Repr

/-- The test `errors.IsAlreadyExists(err)`, false on the nil error. -/
def IsAlreadyExists : Option Err → Bool
  | some (Err.status StatusReason.AlreadyExists _) => true
  | _ => false

/-- The test `errors.IsNotFound(err)`, false on the nil error. -/
def IsNotFound : Option Err → Bool
  | some (Err.status StatusReason.NotFound _) => true
  | _ => false

/-! ## Go maps -/

/-- A Go `map[string]V`: `nil` is the nil map, `mk l` an allocated map whose entries are
read by first match. -/
inductive GoMap (V : Type)
  | nil
  | mk (entries : List (String × V))
  deriving DecidableEq, Repr

/-- Lookup of a key in a list of entries. -/
def lookupEntry {V : Type} (k : String) : List (String × V) → Option V
  | [] => none
  | (k', v) :: t => if k' = k then some v else lookupEntry k t

/-- The write `m[k] = v` on an allocated map. -/
def setEntry {V : Type} (k : String) (v : V) : List (String × V) → List (String × V)
  | [] => [(k, v)]
  | (k', v') :: t => if k' = k then (k, v) :: t else (k', v') :: setEntry k v t

namespace GoMap

variable {V : Type}

/-- The entries of a map; the nil map has none. -/
def entries : GoMap V → List (String × V)
  | nil => []
  | mk l => l

/-- The read `v, ok := m[k]`; reading the nil map finds nothing. -/
def get (m : GoMap V) (k : String) : Option V :=
  lookupEntry k m.entries

/-- The keys of a map. -/
def keys (m : GoMap V) : List String :=
  m.entries.map Prod.fst

/-- The test `m == nil`. -/
def isNil : GoMap V → Bool
  | nil => true
  | mk _ => false

/-- The write `m[k] = v`: a panic on the nil map. -/
def set (m : GoMap V) (k : String) (v : V) : Except Err (GoMap V) :=
  match m with
  | nil => Except.error (Err.panic "assignment to entry in nil map")
  | mk l => Except.ok (mk (setEntry k v l))

/-- The loop `for k, v := range src { dst[k] = v }`: a panic when `dst` is nil and `src`
has an entry; no write happens when `src` is empty. -/
def rangeAssign (src dst : GoMap V) : Except Err (GoMap V) :=
  match dst with
  | mk l => Except.ok (mk (src.entries.foldr (fun kv acc => setEntry kv.1 kv.2 acc) l))
  | nil =>
    if src.entries.isEmpty then Except.ok nil
    else Except.error (Err.panic "assignment to entry in nil map")

/-- The guard `if m == nil { m = map[string]string{} }`. -/
def orEmpty : GoMap V → GoMap V
  | nil => mk []
  | mk l => mk l

/-- Equality of maps as `apiequality.Semantic.DeepEqual` sees it: the same keys with
equal values, the nil map equal to the empty one. -/
def semEq [DecidableEq V] (a b : GoMap V) : Bool :=
  (a.keys ++ b.keys).all (fun k => decide (a.get k = b.get k))

end GoMap

/-! ## The Kubernetes API types the controller touches

Fields the controller never reads one by one are kept in small number; they stand for the
rest of the API type and are carried along by every assignment of the enclosing struct. -/

/-- The `metav1.ObjectMeta` part of an object. -/
structure ObjectMeta where
  Name : String := ""
  Namespace : String := ""
  Labels : GoMap String := GoMap.nil
  Annotations : GoMap String := GoMap.nil
  OwnerReferences : List String := []
  ResourceVersion : String := ""
  deriving DecidableEq, Repr

/-- The `intstr.IntOrString` type. -/
inductive IntOrString
  | int (n : Int)
  | str (s : String)
  deriving DecidableEq, Repr

/-- The `corev1.ServicePort` type. -/
structure ServicePort where
  Name : String := ""
  Protocol : String := ""
  Port : Int := 0
  TargetPort : IntOrString := IntOrString.int 0
  NodePort : Int := 0
  deriving DecidableEq, Repr

/-- The constant `corev1.ServiceTypeClusterIP`. -/
def ServiceTypeClusterIP : String := "ClusterIP"

/-- The constant `corev1.ServiceTypeNodePort`. -/
def ServiceTypeNodePort : String := "NodePort"

/-- The constant `corev1.ServiceTypeLoadBalancer`. -/
def ServiceTypeLoadBalancer : String := "LoadBalancer"

/-- The `corev1.ServiceSpec` type. -/
structure ServiceSpec where
  Ports : List ServicePort := []
  Selector : GoMap String := GoMap.nil
  ClusterIP : String := ""
  Type_ : String := ""
  LoadBalancerIP : String := ""
  SessionAffinity : String := ""
  deriving DecidableEq, Repr

/-- The `corev1.Service` type. -/
structure Service extends ObjectMeta where
  Spec : ServiceSpec := {}
  deriving DecidableEq, Repr

/-- The `corev1.Container` type. -/
structure Container where
  Name : String := ""
  Image : String := ""
  Command : List String := []
  Args : List String := []
  ImagePullPolicy : String := ""
  deriving DecidableEq, Repr

/-- The `corev1.PodSpec` type. -/
structure PodSpec where
  Containers : List Container := []
  RestartPolicy : String := ""
  DNSPolicy : String := ""
  SchedulerName : String := ""
  TerminationGracePeriodSeconds : Option Int := none
  deriving DecidableEq, Repr

/-- The `corev1.PodTemplateSpec` type. -/
structure PodTemplateSpec extends ObjectMeta where
  Spec : PodSpec := {}
  deriving DecidableEq, Repr

/-- The `appsv1.RollingUpdateDeployment` type. -/
structure RollingUpdateDeployment where
  MaxUnavailable : Option IntOrString := none
  MaxSurge : Option IntOrString := none
  deriving DecidableEq, Repr

/-- The `appsv1.DeploymentStrategy` type. -/
structure DeploymentStrategy where
  Type_ : String := ""
  RollingUpdate : Option RollingUpdateDeployment := none
  deriving DecidableEq, Repr

/-- The `appsv1.DeploymentSpec` type. -/
structure DeploymentSpec where
  Replicas : Option Int := none
  Selector : GoMap String := GoMap.nil
  Template : PodTemplateSpec := {}
  Strategy : DeploymentStrategy := {}
  deriving DecidableEq, Repr

/-- The `appsv1.Deployment` type. -/
structure Deployment extends ObjectMeta where
  Spec : DeploymentSpec := {}
  deriving DecidableEq, Repr

/-- The `extensionsv1beta1.IngressBackend` type. -/
structure IngressBackend where
  ServiceName : String := ""
  ServicePort : IntOrString := IntOrString.int 0
  deriving DecidableEq, Repr

/-- One rule of an ingress: a host and its paths. -/
structure IngressRule where
  Host : String := ""
  Paths : List (String × IngressBackend) := []
  deriving DecidableEq, Repr

/-- The `extensionsv1beta1.IngressSpec` type. -/
structure IngressSpec where
  Backend : Option IngressBackend := none
  Rules : List IngressRule := []
  deriving DecidableEq, Repr

/-- The `extensionsv1beta1.Ingress` type. -/
structure Ingress extends ObjectMeta where
  Spec : IngressSpec := {}
  deriving DecidableEq, Repr

/-- The `corev1.ConfigMap` type. -/
structure ConfigMap extends ObjectMeta where
  Data : GoMap String := GoMap.nil
  deriving DecidableEq, Repr

/-- The `corev1.Secret` type; a `[]byte` value is a list of bytes. -/
structure Secret extends ObjectMeta where
  Data : GoMap (List Nat) := GoMap.nil
  Type_ : String := ""
  deriving DecidableEq, Repr

/-! ## Semantic equality (`k8s.io/apimachinery/pkg/api/equality`)

`Semantic.DeepEqual(a1, a2 interface{})` first compares the dynamic types of its two
arguments and answers false when they differ; on equal types it compares field by field,
holding a nil map equal to an empty one and a nil slice equal to an empty one. -/

/-- Semantic equality of two `ObjectMeta` values. -/
def ObjectMeta.semEq (a b : ObjectMeta) : Bool :=
  decide (a.Name = b.Name) && decide (a.Namespace = b.Namespace) &&
  a.Labels.semEq b.Labels && a.Annotations.semEq b.Annotations &&
  decide (a.OwnerReferences = b.OwnerReferences) &&
  decide (a.ResourceVersion = b.ResourceVersion)

/-- Semantic equality of two `ServiceSpec` values. -/
def ServiceSpec.semEq (a b : ServiceSpec) : Bool :=
  decide (a.Ports = b.Ports) && a.Selector.semEq b.Selector &&
  decide (a.ClusterIP = b.ClusterIP) && decide (a.Type_ = b.Type_) &&
  decide (a.LoadBalancerIP = b.LoadBalancerIP) &&
  decide (a.SessionAffinity = b.SessionAffinity)

/-- Semantic equality of two `Service` objects. -/
def Service.semEq (a b : Service) : Bool :=
  a.toObjectMeta.semEq b.toObjectMeta && a.Spec.semEq b.Spec

/-- Semantic equality of two `PodTemplateSpec` values. -/
def PodTemplateSpec.semEq (a b : PodTemplateSpec) : Bool :=
  a.toObjectMeta.semEq b.toObjectMeta && decide (a.Spec = b.Spec)

/-- Semantic equality of two `DeploymentSpec` values. -/
def DeploymentSpec.semEq (a b : DeploymentSpec) : Bool :=
  decide (a.Replicas = b.Replicas) && a.Selector.semEq b.Selector &&
  a.Template.semEq b.Template && decide (a.Strategy = b.Strategy)

/-- Semantic equality of two `Deployment` objects. -/
def Deployment.semEq (a b : Deployment) : Bool :=
  a.toObjectMeta.semEq b.toObjectMeta && a.Spec.semEq b.Spec

/-- Semantic equality of two `Ingress` objects. -/
def Ingress.semEq (a b : Ingress) : Bool :=
  a.toObjectMeta.semEq b.toObjectMeta && decide (a.Spec = b.Spec)

/-- Semantic equality of two `ConfigMap` objects. -/
def ConfigMap.semEq (a b : ConfigMap) : Bool :=
  a.toObjectMeta.semEq b.toObjectMeta && a.Data.semEq b.Data

/-- Semantic equality of two `Secret` objects. -/
def Secret.semEq (a b : Secret) : Bool :=
  a.toObjectMeta.semEq b.toObjectMeta && a.Data.semEq b.Data && decide (a.Type_ = b.Type_)

/-- The values the controller hands to `Semantic.DeepEqual` as `interface{}`, each with its
dynamic type: a struct value or a pointer to a struct. -/
inductive GoValue
  | PodSpec (v : PodSpec)
  | PodSpecPtr (p : PodSpec)
  | ServiceSpec (v : ServiceSpec)
  | IngressSpec (v : IngressSpec)
  | ServicePtr (p : Service)
  | DeploymentPtr (p : Deployment)
  | IngressPtr (p : Ingress)
  | ConfigMapPtr (p : ConfigMap)
  | SecretPtr (p : Secret)

/-- The function `apiequality.Semantic.DeepEqual`: false when the dynamic types differ
(`v1.Type() != v2.Type()`), the semantic comparison of the two values otherwise. -/
def DeepEqual : GoValue → GoValue → Bool
  | GoValue.PodSpec a, GoValue.PodSpec b => decide (a = b)
  | GoValue.PodSpecPtr a, GoValue.PodSpecPtr b => decide (a = b)
  | GoValue.ServiceSpec a, GoValue.ServiceSpec b => a.semEq b
  | GoValue.IngressSpec a, GoValue.IngressSpec b => decide (a = b)
  | GoValue.ServicePtr a, GoValue.ServicePtr b => a.semEq b
  | GoValue.DeploymentPtr a, GoValue.DeploymentPtr b => a.semEq b
  | GoValue.IngressPtr a, GoValue.IngressPtr b => a.semEq b
  | GoValue.ConfigMapPtr a, GoValue.ConfigMapPtr b => a.semEq b
  | GoValue.SecretPtr a, GoValue.SecretPtr b => a.semEq b
  | _, _ => false

/-! ## Runtime objects and the scheme -/

/-- The identity of an object, `client.ObjectKey`. -/
structure ObjectKey where
  Namespace : String
  Name : String
  deriving DecidableEq, Repr

/-- What the controller needs of a `runtime.Object` of static type `α`: its metadata, its
registration in `scheme.Scheme`, and its value as an `interface{}`. -/
class RuntimeObject (α : Type) where
  /-- The accessor `obj.(metav1.Object)`. -/
  getMeta : α → ObjectMeta
  /-- The methods `SetName` and `SetNamespace`. -/
  setNameNamespace : α → String → String → α
  /-- The kinds `scheme.Scheme.ObjectKinds(obj)` lists for the type. -/
  ObjectKinds : Except Err (List String)
  /-- The empty instance `scheme.Scheme.New(gvk)`. -/
  New : String → Except Err α
  /-- The pointer as an `interface{}` value. -/
  toValue : α → GoValue

instance : RuntimeObject Service where
  getMeta o := o.toObjectMeta
  setNameNamespace o n ns := { o with Name := n, Namespace := ns }
  ObjectKinds := Except.ok ["/v1, Kind=Service"]
  New _ := Except.ok {}
  toValue := GoValue.ServicePtr

instance : RuntimeObject Deployment where
  getMeta o := o.toObjectMeta
  setNameNamespace o n ns := { o with Name := n, Namespace := ns }
  ObjectKinds := Except.ok ["apps/v1, Kind=Deployment"]
  New _ := Except.ok {}
  toValue := GoValue.DeploymentPtr

instance : RuntimeObject Ingress where
  getMeta o := o.toObjectMeta
  setNameNamespace o n ns := { o with Name := n, Namespace := ns }
  ObjectKinds := Except.ok ["extensions/v1beta1, Kind=Ingress"]
  New _ := Except.ok {}
  toValue := GoValue.IngressPtr

instance : RuntimeObject ConfigMap where
  getMeta o := o.toObjectMeta
  setNameNamespace o n ns := { o with Name := n, Namespace := ns }
  ObjectKinds := Except.ok ["/v1, Kind=ConfigMap"]
  New _ := Except.ok {}
  toValue := GoValue.ConfigMapPtr

instance : RuntimeObject Secret where
  getMeta o := o.toObjectMeta
  setNameNamespace o n ns := { o with Name := n, Namespace := ns }
  ObjectKinds := Except.ok ["/v1, Kind=Secret"]
  New _ := Except.ok {}
  toValue := GoValue.SecretPtr

/-- The function `InferObjectKind`: the single kind the scheme knows for the object. -/
def InferObjectKind (α : Type) [RuntimeObject α] : Except Err String :=
  match (RuntimeObject.ObjectKinds α : Except Err (List String)) with
  | Except.error err => Except.error err
  | Except.ok gvks =>
    match gvks with
    | [gvk] => Except.ok gvk
    | _ => Except.error (Err.other "object has ambigious gvk")

/-- The function `EmptyClone`: an object of the same kind with the same name and
namespace and every other field unset. -/
def EmptyClone {α : Type} [RuntimeObject α] (obj : α) : Except Err α :=
  match InferObjectKind α with
  | Except.error err => Except.error err
  | Except.ok gvk =>
    match (RuntimeObject.New gvk : Except Err α) with
    | Except.error err => Except.error err
    | Except.ok inst =>
      Except.ok (RuntimeObject.setNameNamespace inst
        (RuntimeObject.getMeta obj).Name (RuntimeObject.getMeta obj).Namespace)

/-- The function `client.ObjectKeyFromObject`. -/
def ObjectKeyFromObject {α : Type} [RuntimeObject α] (obj : α) : Except Err ObjectKey :=
  Except.ok { Namespace := (RuntimeObject.getMeta obj).Namespace,
              Name := (RuntimeObject.getMeta obj).Name }

/-! ## The collaborators: `encoding/json` and the Kubernetes client -/

/-- The two functions of `encoding/json` the controller calls on values of type `α`. -/
structure JSON (α : Type) where
  /-- The function `json.Marshal`. -/
  Marshal : α → Except Err String
  /-- The function `json.Unmarshal` into a zero value. -/
  Unmarshal : String → Except Err α

/-- One call on the store, with its argument. -/
inductive Call (α : Type)
  | Create (obj : α)
  | Get (key : ObjectKey)
  | Update (obj : α)
  deriving DecidableEq, Repr

/-- The test that a call is an `Update`. -/
def Call.isUpdate {α : Type} : Call α → Bool
  | Call.Update _ => true
  | _ => false

/-- The test that a call is a `Create`. -/
def Call.isCreate {α : Type} : Call α → Bool
  | Call.Create _ => true
  | _ => false

/-- The test that a call is a `Get`. -/
def Call.isGet {α : Type} : Call α → Bool
  | Call.Get _ => true
  | _ => false

/-- The `client.Client` embedded in the reconciler, over a store state `σ`. Each method
gets the object pointer and the state, and gives the object as the client left it (the
client writes the server's answer into the pointer), the error, and the next state. -/
structure Client (σ α : Type) where
  /-- The method `Create`. -/
  Create : α → σ → α × Option Err × σ
  /-- The method `Get`. -/
  Get : ObjectKey → α → σ → α × Option Err × σ
  /-- The method `Update`. -/
  Update : α → σ → α × Option Err × σ

/-- What one call of `CreateOrUpdate` leaves: the Go result pair, the store state and the
calls issued on the store, in order. -/
structure Outcome (σ α : Type) where
  obj : Option α
  err : Option Err
  store : σ
  calls : List (Call α)

/-! ## `controller_util.go` -/

/-- The annotation key of the last applied pod template. -/
def LastAppliedPodTemplate : String := "seaweedfs.com/last-applied-podtemplate"

/-- The annotation key of the last applied configuration. -/
def LastAppliedConfigAnnotation : String := "seaweedfs.com/last-applied-configuration"

/-- The type `MergeFn`: it mutates `existing`, which the model returns. -/
abbrev MergeFn (α : Type) := α → α → Except Err α

/-- The method `CreateOrUpdate`. -/
def CreateOrUpdate {σ α : Type} [RuntimeObject α] (r : Client σ α) (obj : α)
    (mergeFn : MergeFn α) (s : σ) : Outcome σ α :=
  match r.Create obj s with
  | (desired, err, s1) =>
    if IsAlreadyExists err then
      match EmptyClone obj with
      | Except.error err => ⟨none, some err, s1, [Call.Create obj]⟩
      | Except.ok existing =>
        match ObjectKeyFromObject existing with
        | Except.error err => ⟨none, some err, s1, [Call.Create obj]⟩
        | Except.ok key =>
          match r.Get key existing s1 with
          | (_, some err, s2) => ⟨none, some err, s2, [Call.Create obj, Call.Get key]⟩
          | (existing, none, s2) =>
            match mergeFn existing desired with
            | Except.error err => ⟨none, some err, s2, [Call.Create obj, Call.Get key]⟩
            | Except.ok mutated =>
              if !DeepEqual (RuntimeObject.toValue existing) (RuntimeObject.toValue mutated) then
                match r.Update mutated s2 with
                | (updated, err, s3) =>
                  ⟨some updated, err, s3, [Call.Create obj, Call.Get key, Call.Update mutated]⟩
              else ⟨some mutated, none, s2, [Call.Create obj, Call.Get key]⟩
    else ⟨some desired, err, s1, [Call.Create obj]⟩

/-- The method `addSpecToAnnotation`. -/
def addSpecToAnnotation (J : JSON PodSpec) (d : Deployment) : Except Err Deployment :=
  match J.Marshal d.Spec.Template.Spec with
  | Except.error err => Except.error err
  | Except.ok b =>
    match d.Annotations.orEmpty.set LastAppliedPodTemplate b with
    | Except.error err => Except.error err
    | Except.ok annotations => Except.ok { d with Annotations := annotations }

/-- The function `GetDeploymentLastAppliedPodTemplate`; its result is a `*corev1.PodSpec`. -/
def GetDeploymentLastAppliedPodTemplate (J : JSON PodSpec) (dep : Deployment) :
    Except Err PodSpec :=
  match dep.Annotations.get LastAppliedPodTemplate with
  | none => Except.error (Err.other "not found spec's apply config")
  | some applied =>
    match J.Unmarshal applied with
    | Except.error err => Except.error err
    | Except.ok podSpec => Except.ok podSpec

/-- The function `DeploymentPodSpecChanged`: it compares the struct
`newDep.Spec.Template.Spec` with the pointer `lastAppliedPodTemplate`. -/
def DeploymentPodSpecChanged (J : JSON PodSpec) (newDep oldDep : Deployment) : Bool :=
  match GetDeploymentLastAppliedPodTemplate J oldDep with
  | Except.error _ => true
  | Except.ok lastAppliedPodTemplate =>
    !DeepEqual (GoValue.PodSpec newDep.Spec.Template.Spec)
      (GoValue.PodSpecPtr lastAppliedPodTemplate)

/-- The function `ServiceEqual`. -/
def ServiceEqual (J : JSON ServiceSpec) (newSvc oldSvc : Service) : Except Err Bool :=
  match oldSvc.Annotations.get LastAppliedConfigAnnotation with
  | some lastAppliedConfig =>
    match J.Unmarshal lastAppliedConfig with
    | Except.error err => Except.error err
    | Except.ok oldSpec =>
      Except.ok (DeepEqual (GoValue.ServiceSpec oldSpec) (GoValue.ServiceSpec newSvc.Spec))
  | none => Except.ok false

/-- The function `IngressEqual`. -/
def IngressEqual (J : JSON IngressSpec) (newIngress oldIngres : Ingress) : Except Err Bool :=
  match oldIngres.Annotations.get LastAppliedConfigAnnotation with
  | some lastAppliedConfig =>
    match J.Unmarshal lastAppliedConfig with
    | Except.error err => Except.error err
    | Except.ok oldIngressSpec =>
      Except.ok (DeepEqual (GoValue.IngressSpec oldIngressSpec)
        (GoValue.IngressSpec newIngress.Spec))
  | none => Except.ok false

/-- The merge function of `CreateOrUpdateDeployment`. -/
def mergeDeployment (J : JSON PodSpec) : MergeFn Deployment := fun existingDep desiredDep =>
  let existingDep : Deployment :=
    { existingDep with
      Spec := { existingDep.Spec with Replicas := desiredDep.Spec.Replicas },
      Labels := desiredDep.Labels }
  match desiredDep.Annotations.rangeAssign existingDep.Annotations.orEmpty with
  | Except.error err => Except.error err
  | Except.ok annotations =>
    let existingDep : Deployment := { existingDep with Annotations := annotations }
    let strategy : DeploymentStrategy :=
      if desiredDep.Spec.Strategy.Type_ ≠ "" then
        if existingDep.Spec.Strategy.RollingUpdate.isSome then
          { Type_ := desiredDep.Spec.Strategy.Type_,
            RollingUpdate := desiredDep.Spec.Strategy.RollingUpdate }
        else
          { existingDep.Spec.Strategy with Type_ := desiredDep.Spec.Strategy.Type_ }
      else existingDep.Spec.Strategy
    let existingDep : Deployment :=
      { existingDep with Spec := { existingDep.Spec with Strategy := strategy } }
    match desiredDep.Spec.Template.Annotations.rangeAssign
        existingDep.Spec.Template.Annotations with
    | Except.error err => Except.error err
    | Except.ok templateAnnotations =>
      let existingDep : Deployment :=
        { existingDep with
          Spec := { existingDep.Spec with
            Template := { existingDep.Spec.Template with Annotations := templateAnnotations } } }
      if DeploymentPodSpecChanged J desiredDep existingDep then
        match J.Marshal desiredDep.Spec.Template.Spec with
        | Except.error err => Except.error err
        | Except.ok b =>
          match existingDep.Annotations.set LastAppliedConfigAnnotation b with
          | Except.error err => Except.error err
          | Except.ok annotations =>
            Except.ok
              { existingDep with
                Annotations := annotations,
                Spec := { existingDep.Spec with
                  Template := { existingDep.Spec.Template with
                    Spec := desiredDep.Spec.Template.Spec } } }
      else Except.ok existingDep

/-- The inner loop of the node-port carry-over: the first `eport` of `ports` with the
`Port` and `Protocol` of `dport` gives `dport` its `NodePort`. -/
def carryNodePort (dport : ServicePort) : List ServicePort → ServicePort
  | [] => dport
  | eport :: rest =>
    if dport.Port = eport.Port ∧ dport.Protocol = eport.Protocol then
      { dport with NodePort := eport.NodePort }
    else carryNodePort dport rest

/-- The outer loop of the node-port carry-over, over the ports just taken from desired. -/
def keepNodePorts (ports : List ServicePort) : List ServicePort → List ServicePort
  | [] => []
  | dport :: rest => carryNodePort dport ports :: keepNodePorts ports rest

/-- The merge function of `CreateOrUpdateService`. -/
def mergeService (J : JSON ServiceSpec) : MergeFn Service := fun existingSvc desiredSvc =>
  match desiredSvc.Annotations.rangeAssign existingSvc.Annotations.orEmpty with
  | Except.error err => Except.error err
  | Except.ok annotations =>
    let existingSvc : Service :=
      { existingSvc with Annotations := annotations, Labels := desiredSvc.Labels }
    match ServiceEqual J desiredSvc existingSvc with
    | Except.error err => Except.error err
    | Except.ok equal =>
      if !equal then
        match J.Marshal desiredSvc.Spec with
        | Except.error err => Except.error err
        | Except.ok b =>
          match existingSvc.Annotations.set LastAppliedConfigAnnotation b with
          | Except.error err => Except.error err
          | Except.ok annotations =>
            let clusterIp := existingSvc.Spec.ClusterIP
            let ports := existingSvc.Spec.Ports
            let serviceType := existingSvc.Spec.Type_
            let existingSvc : Service :=
              { existingSvc with
                Annotations := annotations,
                Spec := { desiredSvc.Spec with ClusterIP := clusterIp } }
            if (serviceType = ServiceTypeNodePort ∨ serviceType = ServiceTypeLoadBalancer) ∧
                (desiredSvc.Spec.Type_ = ServiceTypeNodePort ∨
                  desiredSvc.Spec.Type_ = ServiceTypeLoadBalancer) then
              Except.ok
                { existingSvc with
                  Spec := { existingSvc.Spec with
                    Ports := keepNodePorts ports existingSvc.Spec.Ports } }
            else Except.ok existingSvc
      else Except.ok existingSvc

/-- The merge function of `CreateOrUpdateIngress`. -/
def mergeIngress (J : JSON IngressSpec) : MergeFn Ingress :=
  fun existingIngress desiredIngress =>
  match desiredIngress.Annotations.rangeAssign existingIngress.Annotations.orEmpty with
  | Except.error err => Except.error err
  | Except.ok annotations =>
    let existingIngress : Ingress :=
      { existingIngress with Annotations := annotations, Labels := desiredIngress.Labels }
    match IngressEqual J desiredIngress existingIngress with
    | Except.error err => Except.error err
    | Except.ok equal =>
      if !equal then
        match J.Marshal desiredIngress.Spec with
        | Except.error err => Except.error err
        | Except.ok b =>
          match existingIngress.Annotations.set LastAppliedConfigAnnotation b with
          | Except.error err => Except.error err
          | Except.ok annotations =>
            Except.ok
              { existingIngress with Annotations := annotations, Spec := desiredIngress.Spec }
      else Except.ok existingIngress

/-- The merge function of `CreateOrUpdateConfigMap`. -/
def mergeConfigMap : MergeFn ConfigMap := fun existingConfigMap desiredConfigMap =>
  match desiredConfigMap.Annotations.rangeAssign existingConfigMap.Annotations.orEmpty with
  | Except.error err => Except.error err
  | Except.ok annotations =>
    Except.ok
      { existingConfigMap with
        Annotations := annotations,
        Labels := desiredConfigMap.Labels,
        Data := desiredConfigMap.Data }

/-- The merge function of `CreateOrUpdateSecret`. -/
def mergeSecret : MergeFn Secret := fun existingSecret desiredSecret =>
  match desiredSecret.Annotations.rangeAssign existingSecret.Annotations.orEmpty with
  | Except.error err => Except.error err
  | Except.ok annotations =>
    Except.ok
      { existingSecret with
        Annotations := annotations,
        Labels := desiredSecret.Labels,
        Data := desiredSecret.Data }

/-- The tail of every typed wrapper: `if err != nil { return nil, err }`, the object
otherwise. -/
def typedResult {σ α : Type} (o : Outcome σ α) : Outcome σ α :=
  match o.err with
  | some err => { o with obj := none, err := some err }
  | none => o

/-- The method `CreateOrUpdateDeployment`; the error of `addSpecToAnnotation` is dropped. -/
def CreateOrUpdateDeployment {σ : Type} (J : JSON PodSpec) (r : Client σ Deployment)
    (deploy : Deployment) (s : σ) : Outcome σ Deployment :=
  let deploy :=
    match addSpecToAnnotation J deploy with
    | Except.ok d => d
    | Except.error _ => deploy
  typedResult (CreateOrUpdate r deploy (mergeDeployment J) s)

/-- The method `CreateOrUpdateService`. -/
def CreateOrUpdateService {σ : Type} (J : JSON ServiceSpec) (r : Client σ Service)
    (svc : Service) (s : σ) : Outcome σ Service :=
  typedResult (CreateOrUpdate r svc (mergeService J) s)

/-- The method `CreateOrUpdateIngress`. -/
def CreateOrUpdateIngress {σ : Type} (J : JSON IngressSpec) (r : Client σ Ingress)
    (ingress : Ingress) (s : σ) : Outcome σ Ingress :=
  typedResult (CreateOrUpdate r ingress (mergeIngress J) s)

/-- The method `CreateOrUpdateConfigMap`. -/
def CreateOrUpdateConfigMap {σ : Type} (r : Client σ ConfigMap)
    (configMap : ConfigMap) (s : σ) : Outcome σ ConfigMap :=
  typedResult (CreateOrUpdate r configMap mergeConfigMap s)

/-- The method `CreateOrUpdateSecret`. -/
def CreateOrUpdateSecret {σ : Type} (r : Client σ Secret)
    (secret : Secret) (s : σ) : Outcome σ Secret :=
  typedResult (CreateOrUpdate r secret mergeSecret s)

/-! ## An in-memory object store

The API server as the reconciler sees it when nobody else writes: `Create` stores a new
object and refuses a key that exists, `Get` gives back what was stored, `Update` replaces
the object stored under the key. -/

/-- The key of an object. -/
def keyOf {α : Type} [RuntimeObject α] (obj : α) : ObjectKey :=
  { Namespace := (RuntimeObject.getMeta obj).Namespace, Name := (RuntimeObject.getMeta obj).Name }

/-- The objects of one kind; the first object with a given key is the stored one. -/
abbrev MemStore (α : Type) := List α

/-- The object stored under a key. -/
def MemStore.find {α : Type} [RuntimeObject α] (key : ObjectKey) : MemStore α → Option α
  | [] => none
  | o :: t => if keyOf o = key then some o else MemStore.find key t

/-- The client of the in-memory store. -/
def memClient (α : Type) [RuntimeObject α] : Client (MemStore α) α where
  Create obj s :=
    match MemStore.find (keyOf obj) s with
    | some _ => (obj, some (Err.status StatusReason.AlreadyExists "already exists"), s)
    | none => (obj, none, obj :: s)
  Get key obj s :=
    match MemStore.find key s with
    | some o => (o, none, s)
    | none => (obj, some (Err.status StatusReason.NotFound "not found"), s)
  Update obj s :=
    match MemStore.find (keyOf obj) s with
    | some _ => (obj, none, obj :: s)
    | none => (obj, some (Err.status StatusReason.NotFound "not found"), s)

/-! ## `seaweed_controller.go` and `controller_gateway.go` -/

/-- The type `ctrl.Result`; `RequeueAfter` is a `time.Duration`, in nanoseconds. -/
structure Result where
  Requeue : Bool := false
  RequeueAfter : Int := 0
  deriving DecidableEq, Repr

/-- The constant `time.Second`. -/
def Second : Int := 1000000000

/-- The gateway part of the record's spec. -/
structure GatewaySpec where
  Enabled : Bool := false
  deriving DecidableEq, Repr

/-- The spec of the `seaweedv1.Seaweed` record, as far as the sequencer reads it. -/
structure SeaweedSpec where
  Gateway : GatewaySpec := {}
  deriving DecidableEq, Repr

/-- The `seaweedv1.Seaweed` record. -/
structure Seaweed extends ObjectMeta where
  Spec : SeaweedSpec := {}
  deriving DecidableEq, Repr

/-- What an ensurer returns: `(done bool, result ctrl.Result, err error)`. -/
abbrev EnsureResult := Bool × Result × Option Err

/-- An ensurer: a method of the reconciler that takes the record, acts on the cluster
state `σ` and returns an `EnsureResult`. -/
abbrev Ensurer (σ : Type) := Seaweed → σ → EnsureResult × σ

/-- The methods `Reconcile` calls. -/
inductive Step
  | ensureMaster
  | ensureVolumeServers
  | ensureFilerServers
  | ensureS3Gateway
  | ensureGatewayService
  | ensureGatewaySecret
  | ensureGatewayDeployment
  | ensureSeaweedIngress
  | maintenance
  deriving DecidableEq, Repr

/-- The record of one invocation: the method and what it returned. -/
structure Invocation where
  step : Step
  done : Bool
  result : Result
  err : Option Err
  deriving DecidableEq, Repr

/-- The reconciler: the fetch of the record and the ensurers whose bodies lie outside
`seaweed_controller.go` and `ensureS3Gateway`. -/
structure SeaweedReconciler (σ : Type) where
  /-- The call `r.Get(ctx, req.NamespacedName, seaweedCR)`. -/
  Get : ObjectKey → σ → Seaweed × Option Err × σ
  ensureMaster : Ensurer σ
  ensureVolumeServers : Ensurer σ
  ensureFilerServers : Ensurer σ
  ensureGatewayService : Ensurer σ
  ensureGatewaySecret : Ensurer σ
  ensureGatewayDeployment : Ensurer σ
  ensureSeaweedIngress : Ensurer σ
  maintenance : Ensurer σ

/-- What one pass leaves: the Go result pair, the cluster state, the role ensurers invoked
by `Reconcile` in order, and the gateway ensurers invoked by `ensureS3Gateway` in order. -/
structure Pass (σ : Type) where
  result : Result
  err : Option Err
  store : σ
  invoked : List Invocation
  gateway : List Invocation

/-- The method `findSeaweedCustomResourceInstance`. -/
def findSeaweedCustomResourceInstance {σ : Type} (r : SeaweedReconciler σ) (req : ObjectKey)
    (s : σ) : (Option Seaweed × Bool × Result × Option Err) × σ :=
  match r.Get req s with
  | (_, some err, s1) =>
    if IsNotFound (some err) then
      ((none, true, { RequeueAfter := Second * 5 }, none), s1)
    else ((none, true, {}, some err), s1)
  | (seaweedCR, none, s1) => ((some seaweedCR, false, {}, none), s1)

/-- The method `ensureS3Gateway`, with the gateway ensurers it invoked. -/
def ensureS3Gateway {σ : Type} (r : SeaweedReconciler σ) (seaweedCR : Seaweed) (s : σ) :
    EnsureResult × σ × List Invocation :=
  match r.ensureGatewayService seaweedCR s with
  | ((done, result, err), s1) =>
    let l1 := [Invocation.mk Step.ensureGatewayService done result err]
    if done then ((done, result, err), s1, l1)
    else
      match r.ensureGatewaySecret seaweedCR s1 with
      | ((done, result, err), s2) =>
        let l2 := l1 ++ [Invocation.mk Step.ensureGatewaySecret done result err]
        if done then ((done, result, err), s2, l2)
        else
          match r.ensureGatewayDeployment seaweedCR s2 with
          | ((done, result, err), s3) =>
            ((done, result, err), s3,
              l2 ++ [Invocation.mk Step.ensureGatewayDeployment done result err])

/-- The end of `Reconcile`, from the call of `ensureSeaweedIngress` on. -/
def reconcileIngress {σ : Type} (r : SeaweedReconciler σ) (seaweedCR : Seaweed) (s : σ)
    (invoked gateway : List Invocation) : Pass σ :=
  match r.ensureSeaweedIngress seaweedCR s with
  | ((done, result, err), s5) =>
    let invoked := invoked ++ [Invocation.mk Step.ensureSeaweedIngress done result err]
    if done then ⟨result, err, s5, invoked, gateway⟩
    else if false then
      match r.maintenance seaweedCR s5 with
      | ((done, result, err), s6) =>
        let invoked := invoked ++ [Invocation.mk Step.maintenance done result err]
        if done then ⟨result, err, s6, invoked, gateway⟩
        else ⟨{ RequeueAfter := 5 * Second }, none, s6, invoked, gateway⟩
    else ⟨{ RequeueAfter := 5 * Second }, none, s5, invoked, gateway⟩

/-- The method `Reconcile`. The record pointer that `findSeaweedCustomResourceInstance`
returns is nil only together with `done = true`, so the branch that would dereference a nil
record is never taken. -/
def Reconcile {σ : Type} (r : SeaweedReconciler σ) (req : ObjectKey) (s : σ) : Pass σ :=
  match findSeaweedCustomResourceInstance r req s with
  | ((_, true, result, err), s0) => ⟨result, err, s0, [], []⟩
  | ((none, false, _, _), s0) =>
    ⟨{}, some (Err.panic "nil pointer dereference"), s0, [], []⟩
  | ((some seaweedCR, false, _, _), s0) =>
    match r.ensureMaster seaweedCR s0 with
    | ((done, result, err), s1) =>
      let i1 := [Invocation.mk Step.ensureMaster done result err]
      if done then ⟨result, err, s1, i1, []⟩
      else
        match r.ensureVolumeServers seaweedCR s1 with
        | ((done, result, err), s2) =>
          let i2 := i1 ++ [Invocation.mk Step.ensureVolumeServers done result err]
          if done then ⟨result, err, s2, i2, []⟩
          else
            match r.ensureFilerServers seaweedCR s2 with
            | ((done, result, err), s3) =>
              let i3 := i2 ++ [Invocation.mk Step.ensureFilerServers done result err]
              if done then ⟨result, err, s3, i3, []⟩
              else if seaweedCR.Spec.Gateway.Enabled then
                match ensureS3Gateway r seaweedCR s3 with
                | ((done, result, err), s4, gateway) =>
                  let i4 := i3 ++ [Invocation.mk Step.ensureS3Gateway done result err]
                  if done then ⟨result, err, s4, i4, gateway⟩
                  else reconcileIngress r seaweedCR s4 i4 gateway
              else reconcileIngress r seaweedCR s3 i3 []

/-! ## The sequencer as the specification words it -/

/-- The sequencer of the specification: run the ensurers of a list in order, stop at the
first one whose first returned value is true and return its result and error; when none
stops, return a requeue after five seconds. -/
def runEnsurers {σ : Type} (seaweedCR : Seaweed) :
    List (Step × Ensurer σ) → σ → List Invocation → Result × Option Err × σ × List Invocation
  | [], s, invoked => ({ RequeueAfter := 5 * Second }, none, s, invoked)
  | (step, ensure) :: rest, s, invoked =>
    match ensure seaweedCR s with
    | ((done, result, err), s1) =>
      if done then (result, err, s1, invoked ++ [Invocation.mk step done result err])
      else runEnsurers seaweedCR rest s1 (invoked ++ [Invocation.mk step done result err])

/-- The role ensurers in the order of `Reconcile`, the S3 gateway among them when the
record enables it. -/
def roleEnsurers {σ : Type} (r : SeaweedReconciler σ) (seaweedCR : Seaweed) :
    List (Step × Ensurer σ) :=
  [(Step.ensureMaster, r.ensureMaster),
   (Step.ensureVolumeServers, r.ensureVolumeServers),
   (Step.ensureFilerServers, r.ensureFilerServers)] ++
  (if seaweedCR.Spec.Gateway.Enabled then
    [(Step.ensureS3Gateway, fun cr s => ((ensureS3Gateway r cr s).1, (ensureS3Gateway r cr s).2.1))]
   else []) ++
  [(Step.ensureSeaweedIngress, r.ensureSeaweedIngress)]

/-! ## Objects and collaborators for the closed examples -/

/-- A codec for the examples: `render` encodes a value, and a string decodes to the first
value of `known` that it encodes; every other string is malformed. -/
def exampleJSON {α : Type} (render : α → String) (known : List α) : JSON α where
  Marshal v := Except.ok (render v)
  Unmarshal s :=
    match known.find? (fun v => render v == s) with
    | some v => Except.ok v
    | none => Except.error (Err.other "invalid character")

/-- A live NodePort service with a cluster-assigned address and two assigned node ports. -/
def liveNodePortService : Service :=
  { Name := "seaweed-s3", Namespace := "default",
    Annotations := GoMap.mk [("example.com/owner", "ops")],
    Spec := { Ports := [{ Port := 80, Protocol := "TCP", NodePort := 30080 },
                        { Port := 443, Protocol := "TCP", NodePort := 30443 }],
              ClusterIP := "10.0.0.7", Type_ := ServiceTypeNodePort,
              SessionAffinity := "None" } }

/-- A desired NodePort service with three ports and no node port of its own. -/
def desiredNodePortService : Service :=
  { Name := "seaweed-s3", Namespace := "default",
    Labels := GoMap.mk [("app", "seaweedfs")],
    Spec := { Ports := [{ Port := 443, Protocol := "TCP" },
                        { Port := 80, Protocol := "TCP" },
                        { Port := 8080, Protocol := "TCP" }],
              Type_ := ServiceTypeNodePort } }

/-- The codec of the service examples; it knows the desired spec. -/
def serviceJSON : JSON ServiceSpec :=
  exampleJSON (fun v => "ServiceSpec " ++ v.Type_ ++ " " ++ v.ClusterIP)
    [desiredNodePortService.Spec]

/-- An ensurer for the examples: it notes its step in the state and lets the pass go on. -/
def passingEnsurer (step : Step) : Ensurer (List Step) :=
  fun _ s => ((false, {}, none), s ++ [step])

/-- An ensurer for the examples: it notes its step in the state and stops the pass with
an error. -/
def stoppingEnsurer (step : Step) (msg : String) : Ensurer (List Step) :=
  fun _ s => ((true, {}, some (Err.other msg)), s ++ [step])

/-- A record with the gateway enabled. -/
def gatewayRecord : Seaweed :=
  { Name := "seaweed", Namespace := "default", Spec := { Gateway := { Enabled := true } } }

/-- A reconciler for the examples: the record is found, the master ensurer lets the pass
go on and the volume-server ensurer stops it. -/
def volumeStopsReconciler : SeaweedReconciler (List Step) where
  Get _ s := (gatewayRecord, none, s)
  ensureMaster := passingEnsurer Step.ensureMaster
  ensureVolumeServers := stoppingEnsurer Step.ensureVolumeServers "volume servers not ready"
  ensureFilerServers := passingEnsurer Step.ensureFilerServers
  ensureGatewayService := passingEnsurer Step.ensureGatewayService
  ensureGatewaySecret := passingEnsurer Step.ensureGatewaySecret
  ensureGatewayDeployment := passingEnsurer Step.ensureGatewayDeployment
  ensureSeaweedIngress := passingEnsurer Step.ensureSeaweedIngress
  maintenance := passingEnsurer Step.maintenance

/-- A live config map, already stored. -/
def liveConfigMap : ConfigMap :=
  { Name := "seaweed-filer", Namespace := "default",
    Annotations := GoMap.mk [("example.com/owner", "ops")],
    Data := GoMap.mk [("filer.toml", "[leveldb2]"), ("stale", "x")] }

/-- A desired config map for the same key with other data. -/
def desiredConfigMap : ConfigMap :=
  { Name := "seaweed-filer", Namespace := "default",
    Labels := GoMap.mk [("app", "seaweedfs")],
    Annotations := GoMap.mk [("seaweedfs.com/role", "filer")],
    Data := GoMap.mk [("filer.toml", "[redis]")] }

/-- The merge of the desired config map into the live one. -/
def mergedConfigMap : ConfigMap :=
  { Name := "seaweed-filer", Namespace := "default",
    Labels := GoMap.mk [("app", "seaweedfs")],
    Annotations := GoMap.mk [("example.com/owner", "ops"), ("seaweedfs.com/role", "filer")],
    Data := GoMap.mk [("filer.toml", "[redis]")] }

/-- A client whose every call fails with the same error and changes nothing. -/
def failingClient (α : Type) (err : Err) : Client Unit α where
  Create obj s := (obj, some err, s)
  Get _ obj s := (obj, some err, s)
  Update obj s := (obj, some err, s)

/-- The pod spec of the gateway deployment as the operator builds it. -/
def gatewayPodSpec : PodSpec :=
  { Containers := [{ Name := "s3-gateway", Image := "minio/minio",
                     Command := ["/opt/bin/minio"], Args := ["gateway", "weed"] }] }

/-- The same pod spec as the API server stores it, with its defaults filled in. -/
def defaultedPodSpec : PodSpec :=
  { gatewayPodSpec with
    RestartPolicy := "Always", DNSPolicy := "ClusterFirst",
    SchedulerName := "default-scheduler", TerminationGracePeriodSeconds := some 30 }

/-- The codec of the deployment examples; it knows the gateway pod spec. -/
def podJSON : JSON PodSpec :=
  exampleJSON (fun v => "PodSpec " ++ v.RestartPolicy ++ " " ++ v.DNSPolicy) [gatewayPodSpec]

/-- The desired gateway deployment, before `CreateOrUpdateDeployment` annotates it. -/
def desiredDeployment : Deployment :=
  { Name := "seaweed-s3-gateway", Namespace := "default",
    Spec := { Replicas := some 1,
              Selector := GoMap.mk [("app", "seaweedfs")],
              Template := { Labels := GoMap.mk [("app", "seaweedfs")],
                            Spec := gatewayPodSpec } } }

/-- The live gateway deployment after an earlier pass: both snapshot annotations hold the
desired pod spec, replicas and labels are the desired ones, and the pod spec and the
strategy carry the defaults of the API server. -/
def liveDeployment : Deployment :=
  { Name := "seaweed-s3-gateway", Namespace := "default",
    Annotations := GoMap.mk [(LastAppliedPodTemplate, "PodSpec  "),
                             ( LastAppliedConfigAnnotation, "PodSpec  ")],
    Spec := { Replicas := some 1,
              Selector := GoMap.mk [("app", "seaweedfs")],
              Template := { Labels := GoMap.mk [("app", "seaweedfs")],
                            Spec := defaultedPodSpec },
              Strategy := { Type_ := "RollingUpdate",
                            RollingUpdate := some { MaxUnavailable := some (IntOrString.str "25%"),
                                                    MaxSurge := some (IntOrString.str "25%") } } } }

/-- A live deployment whose pod-template snapshot is not valid JSON. -/
def corruptSnapshotDeployment : Deployment :=
  { liveDeployment with
    Annotations := GoMap.mk [(LastAppliedPodTemplate, "not json")] }

/-- A live service whose last-applied-configuration snapshot is not valid JSON. -/
def corruptSnapshotService : Service :=
  { liveNodePortService with
    Annotations := GoMap.mk [( LastAppliedConfigAnnotation, "not json")] }

/-! ## Two successive calls, as the idempotence property words them -/

/-- The second of two successive calls of `CreateOrUpdate` on the in-memory store was
idle: it succeeded, issued no `Update`, left the store as the first call left it, and
returned an object semantically equal to the one the first call left in the store under
`key`. -/
def secondCallIdle {α : Type} [RuntimeObject α] (key : ObjectKey)
    (first second : Outcome (MemStore α) α) : Prop :=
  second.err = none ∧ second.calls.any Call.isUpdate = false ∧ second.store = first.store ∧
  ∃ persisted returned, MemStore.find key first.store = some persisted ∧
    second.obj = some returned ∧
    DeepEqual (RuntimeObject.toValue persisted) (RuntimeObject.toValue returned) = true

/-! ## Further objects for the closed examples -/

/-- A live service whose snapshot records the desired spec while its live port list was
changed by another actor: port 443 is gone and port 9999 was added. -/
def driftedService : Service :=
  { Name := "seaweed-s3", Namespace := "default",
    Annotations := GoMap.mk [( LastAppliedConfigAnnotation, "ServiceSpec NodePort ")],
    Spec := { Ports := [{ Port := 80, Protocol := "TCP", NodePort := 30080 },
                        { Port := 9999, Protocol := "TCP", NodePort := 31999 }],
              ClusterIP := "10.0.0.7", Type_ := ServiceTypeNodePort,
              SessionAffinity := "None" } }

/-- A service port with its node port cleared. -/
def withoutNodePort (p : ServicePort) : ServicePort :=
  { p with NodePort := 0 }

/-- The role that `Reconcile` calls after a given role when the pass goes on; the ingress
role, the gateway ensurers and the maintenance step have no next role. -/
def nextRole (enabled : Bool) : Step → Option Step
  | Step.ensureMaster => some Step.ensureVolumeServers
  | Step.ensureVolumeServers => some Step.ensureFilerServers
  | Step.ensureFilerServers =>
    some (if enabled then Step.ensureS3Gateway else Step.ensureSeaweedIngress)
  | Step.ensureS3Gateway => some Step.ensureSeaweedIngress
  | _ => none

/-- A record with the gateway disabled. -/
def gatewayOffRecord : Seaweed :=
  { Name := "seaweed", Namespace := "default", Spec := { Gateway := { Enabled := false } } }

/-- A reconciler for the examples: the given record is found and every ensurer notes its
step in the state and lets the pass go on. -/
def passingReconciler (record : Seaweed) : SeaweedReconciler (List Step) where
  Get _ s := (record, none, s)
  ensureMaster := passingEnsurer Step.ensureMaster
  ensureVolumeServers := passingEnsurer Step.ensureVolumeServers
  ensureFilerServers := passingEnsurer Step.ensureFilerServers
  ensureGatewayService := passingEnsurer Step.ensureGatewayService
  ensureGatewaySecret := passingEnsurer Step.ensureGatewaySecret
  ensureGatewayDeployment := passingEnsurer Step.ensureGatewayDeployment
  ensureSeaweedIngress := passingEnsurer Step.ensureSeaweedIngress
  maintenance := passingEnsurer Step.maintenance

/-- A reconciler for the examples: the fetch of the record fails with the given error. -/
def failingGetReconciler (err : Err) : SeaweedReconciler (List Step) :=
  { passingReconciler gatewayRecord with Get := fun _ s => ({}, some err, s) }

/-- A live service of type ClusterIP, with one port and no node port. -/
def liveClusterIPService : Service :=
  { Name := "seaweed-s3", Namespace := "default",
    Spec := { Ports := [{ Port := 80, Protocol := "TCP" }],
              ClusterIP := "10.0.0.7", Type_ := ServiceTypeClusterIP } }

/-- A desired NodePort service that names the node port of its port itself. -/
def desiredFixedNodePortService : Service :=
  { Name := "seaweed-s3", Namespace := "default",
    Spec := { Ports := [{ Port := 80, Protocol := "TCP", NodePort := 31000 }],
              Type_ := ServiceTypeNodePort } }

/-- The gateway ensurer that `ensureS3Gateway` calls after a given one when it goes on;
the deployment ensurer is its last. -/
def nextGatewayEnsurer : Step → Option Step
  | Step.ensureGatewayService => some Step.ensureGatewaySecret
  | Step.ensureGatewaySecret => some Step.ensureGatewayDeployment
  | _ => none

/-- The record of an invocation of `step` that returned `x`. -/
def recorded (step : Step) (x : EnsureResult) : Invocation :=
  Invocation.mk step x.1 x.2.1 x.2.2

/-- The desired gateway deployment as `CreateOrUpdateDeployment` hands it to `Create` and
to the merge function: stamped with the encoding of its pod spec. -/
def stampedDeployment : Deployment :=
  { desiredDeployment with
    Annotations := GoMap.mk [(LastAppliedPodTemplate, "PodSpec  ")] }
/-! ## Lemmas on maps -/

theorem lookupEntry_setEntry {V : Type} (k k' : String) (v : V) (l : List (String × V)) :
    lookupEntry k' (setEntry k v l) = if k = k' then some v else lookupEntry k' l := by
  induction l with
  | nil => simp [setEntry, lookupEntry]
  | cons hd tl ih =>
    obtain ⟨a, b⟩ := hd
    by_cases h : a = k
    · subst h
      by_cases h' : a = k' <;> simp [setEntry, lookupEntry, h']
    · by_cases h' : a = k'
      · subst h'
        have : ¬ k = a := fun e => h e.symm
        simp [setEntry, lookupEntry, h, this]
      · simp [setEntry, lookupEntry, h, h', ih]

theorem lookupEntry_foldr_setEntry {V : Type} (k : String) (src l : List (String × V)) :
    lookupEntry k (src.foldr (fun kv acc => setEntry kv.1 kv.2 acc) l) =
      (lookupEntry k src).orElse (fun _ => lookupEntry k l) := by
  induction src with
  | nil => simp [lookupEntry]
  | cons hd tl ih =>
    obtain ⟨a, b⟩ := hd
    simp only [List.foldr_cons, lookupEntry_setEntry, lookupEntry]
    by_cases h : a = k
    · simp [h]
    · simp [h, ih]

theorem lookupEntry_eq_none_of_not_mem {V : Type} (k : String) (l : List (String × V))
    (h : k ∉ l.map Prod.fst) : lookupEntry k l = none := by
  induction l with
  | nil => rfl
  | cons hd tl ih =>
    obtain ⟨a, b⟩ := hd
    simp only [List.map_cons, List.mem_cons, not_or] at h
    have : ¬ a = k := fun e => h.1 e.symm
    simp [lookupEntry, this, ih h.2]

theorem GoMap.semEq_iff {V : Type} [DecidableEq V] (a b : GoMap V) :
    a.semEq b = true ↔ ∀ k, a.get k = b.get k := by
  constructor
  · intro h k
    simp only [GoMap.semEq, List.all_eq_true, decide_eq_true_eq, List.mem_append] at h
    by_cases hk : k ∈ a.keys ∨ k ∈ b.keys
    · exact h k hk
    · rw [not_or] at hk
      rw [GoMap.get, GoMap.get, lookupEntry_eq_none_of_not_mem k _ hk.1,
        lookupEntry_eq_none_of_not_mem k _ hk.2]
  · intro h
    simp only [GoMap.semEq, List.all_eq_true, decide_eq_true_eq]
    intro k _
    exact h k

theorem GoMap_semEq_refl {V : Type} [DecidableEq V] (a : GoMap V) : a.semEq a = true :=
  (GoMap.semEq_iff a a).2 (fun _ => rfl)

theorem GoMap.rangeAssign_orEmpty {V : Type} (src dst : GoMap V) :
    src.rangeAssign dst.orEmpty =
      Except.ok (GoMap.mk
        (src.entries.foldr (fun kv acc => setEntry kv.1 kv.2 acc) dst.entries)) := by
  cases dst <;> rfl

theorem GoMap.get_mk_foldr {V : Type} (src dst : GoMap V) (k : String) :
    (GoMap.mk (src.entries.foldr (fun kv acc => setEntry kv.1 kv.2 acc) dst.entries)).get k =
      (src.get k).orElse (fun _ => dst.get k) := by
  simp [GoMap.get, GoMap.entries, lookupEntry_foldr_setEntry]

theorem GoMap.get_mk_setEntry {V : Type} (l : List (String × V)) (k k' : String) (v : V) :
    (GoMap.mk (setEntry k v l)).get k' = if k = k' then some v else (GoMap.mk l).get k' := by
  simp [GoMap.get, GoMap.entries, lookupEntry_setEntry]

/-! ## Lemmas on the node-port carry-over -/

theorem carryNodePort_eq_find (dport : ServicePort) (ports : List ServicePort) :
    carryNodePort dport ports =
      match ports.find? (fun q => decide (q.Port = dport.Port ∧ q.Protocol = dport.Protocol)) with
      | some q => { dport with NodePort := q.NodePort }
      | none => dport := by
  induction ports with
  | nil => rfl
  | cons eport rest ih =>
    by_cases h : dport.Port = eport.Port ∧ dport.Protocol = eport.Protocol
    · have h' : decide (eport.Port = dport.Port ∧ eport.Protocol = dport.Protocol) = true :=
        decide_eq_true ⟨h.1.symm, h.2.symm⟩
      simp only [List.find?_cons, h']
      unfold carryNodePort
      rw [if_pos h]
    · have h' : decide (eport.Port = dport.Port ∧ eport.Protocol = dport.Protocol) = false :=
        decide_eq_false (fun e => h ⟨e.1.symm, e.2.symm⟩)
      simp only [List.find?_cons, h']
      unfold carryNodePort
      rw [if_neg h]
      exact ih

theorem keepNodePorts_eq_map (ports dports : List ServicePort) :
    keepNodePorts ports dports = dports.map (fun p => carryNodePort p ports) := by
  induction dports with
  | nil => rfl
  | cons p rest ih => simp [keepNodePorts, ih]

theorem GoMap.set_mk {V : Type} (l : List (String × V)) (k : String) (v : V) :
    (GoMap.mk l).set k v = Except.ok (GoMap.mk (setEntry k v l)) := rfl

theorem GoMap.get_merged_of_some {V : Type} (src dst : GoMap V) (k : String) (v : V)
    (h : src.get k = some v) :
    (GoMap.mk (src.entries.foldr (fun kv acc => setEntry kv.1 kv.2 acc) dst.entries)).get k
      = some v := by
  rw [GoMap.get_mk_foldr, h]
  rfl

theorem GoMap.get_merged_of_none {V : Type} (src dst : GoMap V) (k : String)
    (h : src.get k = none) :
    (GoMap.mk (src.entries.foldr (fun kv acc => setEntry kv.1 kv.2 acc) dst.entries)).get k
      = dst.get k := by
  rw [GoMap.get_mk_foldr, h]
  rfl

theorem GoMap.orEmpty_set {V : Type} (m : GoMap V) (k : String) (v : V) :
    m.orEmpty.set k v = Except.ok (GoMap.mk (setEntry k v m.entries)) := by
  cases m <;> rfl

/-! ## Lemmas on the oracles -/

theorem DeploymentPodSpecChanged_eq_true (J : JSON PodSpec) (newDep oldDep : Deployment) :
    DeploymentPodSpecChanged J newDep oldDep = true := by
  unfold DeploymentPodSpecChanged
  split
  · rfl
  · simp [DeepEqual]

/-! ## Lemmas on semantic equality -/

theorem ObjectMeta.semEq_of_get (a b : ObjectMeta) (hname : a.Name = b.Name)
    (hns : a.Namespace = b.Namespace) (hlabels : a.Labels = b.Labels)
    (hann : ∀ k, a.Annotations.get k = b.Annotations.get k)
    (hown : a.OwnerReferences = b.OwnerReferences)
    (hrv : a.ResourceVersion = b.ResourceVersion) : a.semEq b = true := by
  unfold ObjectMeta.semEq
  rw [(GoMap.semEq_iff a.Annotations b.Annotations).2 hann, hname, hns, hlabels, hown, hrv,
    GoMap_semEq_refl]
  simp

theorem ServiceSpec_semEq_refl (a : ServiceSpec) : a.semEq a = true := by
  unfold ServiceSpec.semEq
  rw [GoMap_semEq_refl]
  simp

/-! ## Lemmas on the in-memory store -/

theorem MemStore.keyOf_of_find {α : Type} [RuntimeObject α] (key : ObjectKey) (s : MemStore α)
    (p : α) (h : MemStore.find key s = some p) : keyOf p = key := by
  induction s with
  | nil => cases h
  | cons o t ih =>
    unfold MemStore.find at h
    split at h
    · rename_i hk
      cases h
      exact hk
    · exact ih h

theorem typedResult_of_err_none {σ α : Type} (o : Outcome σ α) (h : o.err = none) :
    typedResult o = o := by
  unfold typedResult
  rw [h]

theorem typedResult_err {σ α : Type} (o : Outcome σ α) : (typedResult o).err = o.err := by
  unfold typedResult
  split
  · rename_i e he
    rw [he]
  · rfl

theorem typedResult_store {σ α : Type} (o : Outcome σ α) : (typedResult o).store = o.store := by
  unfold typedResult
  split <;> rfl

theorem CreateOrUpdate_memClient_absent {α : Type} [RuntimeObject α] (mergeFn : MergeFn α)
    (d : α) (s : MemStore α) (h : MemStore.find (keyOf d) s = none) :
    CreateOrUpdate (memClient α) d mergeFn s = ⟨some d, none, d :: s, [Call.Create d]⟩ := by
  simp [CreateOrUpdate, memClient, h, IsAlreadyExists]

theorem CreateOrUpdate_memClient_present {α : Type} [RuntimeObject α] (mergeFn : MergeFn α)
    (d c p : α) (s : MemStore α)
    (hclone : EmptyClone d = Except.ok c)
    (hkey : ObjectKeyFromObject c = Except.ok (keyOf d))
    (hmerge : ∀ e m, mergeFn e d = Except.ok m → keyOf m = keyOf e)
    (h : MemStore.find (keyOf d) s = some p) :
    CreateOrUpdate (memClient α) d mergeFn s =
      match mergeFn p d with
      | Except.error e => ⟨none, some e, s, [Call.Create d, Call.Get (keyOf d)]⟩
      | Except.ok m =>
        if !DeepEqual (RuntimeObject.toValue p) (RuntimeObject.toValue m) then
          ⟨some m, none, m :: s, [Call.Create d, Call.Get (keyOf d), Call.Update m]⟩
        else ⟨some m, none, s, [Call.Create d, Call.Get (keyOf d)]⟩ := by
  cases hm : mergeFn p d with
  | error e => simp [CreateOrUpdate, memClient, h, IsAlreadyExists, hclone, hkey, hm]
  | ok m =>
    have hk : keyOf m = keyOf d := by
      rw [hmerge p m hm]
      exact MemStore.keyOf_of_find _ s p h
    cases hd : DeepEqual (RuntimeObject.toValue p) (RuntimeObject.toValue m) <;>
      simp [CreateOrUpdate, memClient, h, IsAlreadyExists, hclone, hkey, hm, hd, hk]

theorem CreateOrUpdate_memClient_twice {α : Type} [RuntimeObject α] (mergeFn : MergeFn α)
    (d c : α) (s : MemStore α)
    (hclone : EmptyClone d = Except.ok c)
    (hkey : ObjectKeyFromObject c = Except.ok (keyOf d))
    (hmerge : ∀ e m, mergeFn e d = Except.ok m → keyOf m = keyOf e)
    (hstable : ∀ e m1, mergeFn e d = Except.ok m1 →
      ∃ m2, mergeFn m1 d = Except.ok m2 ∧
        DeepEqual (RuntimeObject.toValue m1) (RuntimeObject.toValue m2) = true)
    (hcreated : MemStore.find (keyOf d) s = none →
      ∃ m2, mergeFn d d = Except.ok m2 ∧
        DeepEqual (RuntimeObject.toValue d) (RuntimeObject.toValue m2) = true)
    (h1 : (CreateOrUpdate (memClient α) d mergeFn s).err = none) :
    secondCallIdle (keyOf d) (CreateOrUpdate (memClient α) d mergeFn s)
      (CreateOrUpdate (memClient α) d mergeFn
        (CreateOrUpdate (memClient α) d mergeFn s).store) := by
  cases hf : MemStore.find (keyOf d) s with
  | none =>
    obtain ⟨m2, hm2, heq⟩ := hcreated hf
    have hf' : MemStore.find (keyOf d) (d :: s) = some d := by
      simp [MemStore.find]
    rw [CreateOrUpdate_memClient_absent mergeFn d s hf]
    simp only
    rw [CreateOrUpdate_memClient_present mergeFn d c d (d :: s) hclone hkey hmerge hf', hm2]
    simp only [heq, Bool.not_true, Bool.false_eq_true, reduceIte]
    exact ⟨rfl, by simp [Call.isUpdate], rfl, d, m2, hf', rfl, heq⟩
  | some p =>
    rw [CreateOrUpdate_memClient_present mergeFn d c p s hclone hkey hmerge hf] at h1 ⊢
    cases hm : mergeFn p d with
    | error e =>
      rw [hm] at h1
      cases h1
    | ok m1 =>
      simp only [hm]
      cases hd : DeepEqual (RuntimeObject.toValue p) (RuntimeObject.toValue m1) with
      | true =>
        simp only [Bool.not_true, Bool.false_eq_true, reduceIte]
        rw [CreateOrUpdate_memClient_present mergeFn d c p s hclone hkey hmerge hf, hm]
        simp only [hd, Bool.not_true, Bool.false_eq_true, reduceIte]
        exact ⟨rfl, by simp [Call.isUpdate], rfl, p, m1, hf, rfl, hd⟩
      | false =>
        obtain ⟨m2, hm2, heq⟩ := hstable p m1 hm
        have hk : keyOf m1 = keyOf d := by
          rw [hmerge p m1 hm]
          exact MemStore.keyOf_of_find _ s p hf
        have hf' : MemStore.find (keyOf d) (m1 :: s) = some m1 := by
          simp [MemStore.find, hk]
        simp only [Bool.not_false, reduceIte]
        rw [CreateOrUpdate_memClient_present mergeFn d c m1 (m1 :: s) hclone hkey hmerge hf',
          hm2]
        simp only [heq, Bool.not_true, Bool.false_eq_true, reduceIte]
        exact ⟨rfl, by simp [Call.isUpdate], rfl, m1, m2, hf', rfl, heq⟩

/-! ## Lemmas on merging twice -/

theorem GoMap.get_merged_absorb {V : Type} (src x : GoMap V)
    (h : ∀ k v, src.get k = some v → x.get k = some v) (k : String) :
    x.get k =
      (GoMap.mk (src.entries.foldr (fun kv acc => setEntry kv.1 kv.2 acc) x.entries)).get k := by
  rw [GoMap.get_mk_foldr]
  cases hs : src.get k with
  | none => rfl
  | some v => exact h k v hs

theorem mergeConfigMap_eq (existing desired : ConfigMap) :
    mergeConfigMap existing desired = Except.ok
      { existing with
        Annotations := GoMap.mk (desired.Annotations.entries.foldr
          (fun kv acc => setEntry kv.1 kv.2 acc) existing.Annotations.entries),
        Labels := desired.Labels,
        Data := desired.Data } := by
  unfold mergeConfigMap
  simp only [GoMap.rangeAssign_orEmpty]

theorem mergeConfigMap_absorb (x desired : ConfigMap) (hl : x.Labels = desired.Labels)
    (hd : x.Data = desired.Data)
    (ha : ∀ k v, desired.Annotations.get k = some v → x.Annotations.get k = some v) :
    ∃ m2, mergeConfigMap x desired = Except.ok m2 ∧
      DeepEqual (GoValue.ConfigMapPtr x) (GoValue.ConfigMapPtr m2) = true := by
  refine ⟨_, mergeConfigMap_eq x desired, ?_⟩
  show ConfigMap.semEq _ _ = true
  unfold ConfigMap.semEq
  simp only [Bool.and_eq_true]
  refine ⟨ObjectMeta.semEq_of_get _ _ rfl rfl hl (GoMap.get_merged_absorb _ _ ha) rfl rfl, ?_⟩
  rw [hd]
  exact GoMap_semEq_refl _

theorem mergeSecret_eq (existing desired : Secret) :
    mergeSecret existing desired = Except.ok
      { existing with
        Annotations := GoMap.mk (desired.Annotations.entries.foldr
          (fun kv acc => setEntry kv.1 kv.2 acc) existing.Annotations.entries),
        Labels := desired.Labels,
        Data := desired.Data } := by
  unfold mergeSecret
  simp only [GoMap.rangeAssign_orEmpty]

theorem mergeSecret_absorb (x desired : Secret) (hl : x.Labels = desired.Labels)
    (hd : x.Data = desired.Data)
    (ha : ∀ k v, desired.Annotations.get k = some v → x.Annotations.get k = some v) :
    ∃ m2, mergeSecret x desired = Except.ok m2 ∧
      DeepEqual (GoValue.SecretPtr x) (GoValue.SecretPtr m2) = true := by
  refine ⟨_, mergeSecret_eq x desired, ?_⟩
  show Secret.semEq _ _ = true
  unfold Secret.semEq
  simp only [Bool.and_eq_true, decide_eq_true_eq]
  refine ⟨⟨ObjectMeta.semEq_of_get _ _ rfl rfl hl (GoMap.get_merged_absorb _ _ ha) rfl rfl,
    ?_⟩, trivial⟩
  rw [hd]
  exact GoMap_semEq_refl _

theorem ServiceEqual_of_get (J : JSON ServiceSpec) (newSvc oldSvc : Service)
    (applied : String) (oldSpec : ServiceSpec)
    (h1 : oldSvc.Annotations.get LastAppliedConfigAnnotation = some applied)
    (h2 : J.Unmarshal applied = Except.ok oldSpec) :
    ServiceEqual J newSvc oldSvc =
      Except.ok (DeepEqual (GoValue.ServiceSpec oldSpec) (GoValue.ServiceSpec newSvc.Spec)) := by
  unfold ServiceEqual
  simp only [h1, h2]

theorem ServiceEqual_congr (J : JSON ServiceSpec) (newSvc oldSvc oldSvc' : Service)
    (h : oldSvc'.Annotations.get LastAppliedConfigAnnotation
      = oldSvc.Annotations.get LastAppliedConfigAnnotation) :
    ServiceEqual J newSvc oldSvc' = ServiceEqual J newSvc oldSvc := by
  unfold ServiceEqual
  rw [h]

theorem Service_semEq_merged (x : Service) (annotations labels : GoMap String)
    (hl : x.Labels = labels) (ha : ∀ k, x.Annotations.get k = annotations.get k) :
    DeepEqual (GoValue.ServicePtr x)
      (GoValue.ServicePtr { x with Annotations := annotations, Labels := labels }) = true := by
  show Service.semEq _ _ = true
  unfold Service.semEq
  simp only [Bool.and_eq_true]
  exact ⟨ObjectMeta.semEq_of_get _ _ rfl rfl hl ha rfl rfl, ServiceSpec_semEq_refl _⟩

theorem mergeService_of_equal (J : JSON ServiceSpec) (existing desired : Service)
    (h : ServiceEqual J desired
      { existing with
        Annotations := GoMap.mk (desired.Annotations.entries.foldr
          (fun kv acc => setEntry kv.1 kv.2 acc) existing.Annotations.entries),
        Labels := desired.Labels } = Except.ok true) :
    mergeService J existing desired = Except.ok
      { existing with
        Annotations := GoMap.mk (desired.Annotations.entries.foldr
          (fun kv acc => setEntry kv.1 kv.2 acc) existing.Annotations.entries),
        Labels := desired.Labels } := by
  unfold mergeService
  simp only [GoMap.rangeAssign_orEmpty, h]
  rfl

theorem mergeService_stable (J : JSON ServiceSpec) (existing desired m1 : Service)
    (hno : desired.Annotations.get LastAppliedConfigAnnotation = none)
    (hrt : ∀ b, J.Marshal desired.Spec = Except.ok b → ∃ y, J.Unmarshal b = Except.ok y ∧
      DeepEqual (GoValue.ServiceSpec y) (GoValue.ServiceSpec desired.Spec) = true)
    (h : mergeService J existing desired = Except.ok m1) :
    ∃ m2, mergeService J m1 desired = Except.ok m2 ∧
      DeepEqual (GoValue.ServicePtr m1) (GoValue.ServicePtr m2) = true := by
  have key : m1.Labels = desired.Labels ∧
      (∀ k v, desired.Annotations.get k = some v → m1.Annotations.get k = some v) ∧
      ServiceEqual J desired m1 = Except.ok true := by
    unfold mergeService at h
    simp only [GoMap.rangeAssign_orEmpty, GoMap.set_mk] at h
    split at h
    · cases h
    · rename_i equal hequal
      cases equal with
      | true =>
        simp only [Bool.not_true, Bool.false_eq_true, reduceIte] at h
        cases h
        exact ⟨rfl, fun k v hv => GoMap.get_merged_of_some _ _ k v hv, hequal⟩
      | false =>
        simp only [Bool.not_false, reduceIte] at h
        split at h
        · cases h
        · rename_i b hb
          obtain ⟨y, hy, hyeq⟩ := hrt b hb
          have hlac : ∀ k v, desired.Annotations.get k = some v →
              (GoMap.mk (setEntry LastAppliedConfigAnnotation b
                (desired.Annotations.entries.foldr (fun kv acc => setEntry kv.1 kv.2 acc)
                  existing.Annotations.entries))).get k = some v := by
            intro k v hv
            rw [GoMap.get_mk_setEntry]
            have hk : ¬ LastAppliedConfigAnnotation = k := by
              intro e
              rw [← e, hno] at hv
              cases hv
            rw [if_neg hk]
            exact GoMap.get_merged_of_some _ _ k v hv
          split at h
          all_goals cases h
          all_goals
            refine ⟨rfl, hlac, ?_⟩
            rw [ServiceEqual_of_get J desired _ b y (by simp [GoMap.get_mk_setEntry]) hy, hyeq]
  obtain ⟨hl, ha, heq⟩ := key
  have heq' : ServiceEqual J desired
      { m1 with
        Annotations := GoMap.mk (desired.Annotations.entries.foldr
          (fun kv acc => setEntry kv.1 kv.2 acc) m1.Annotations.entries),
        Labels := desired.Labels } = Except.ok true := by
    rw [ServiceEqual_congr J desired m1 _ (GoMap.get_merged_absorb _ _ ha _).symm]
    exact heq
  exact ⟨_, mergeService_of_equal J m1 desired heq',
    Service_semEq_merged m1 _ _ hl (GoMap.get_merged_absorb _ _ ha)⟩

theorem IngressEqual_of_get (J : JSON IngressSpec) (newIngress oldIngress : Ingress)
    (applied : String) (oldSpec : IngressSpec)
    (h1 : oldIngress.Annotations.get LastAppliedConfigAnnotation = some applied)
    (h2 : J.Unmarshal applied = Except.ok oldSpec) :
    IngressEqual J newIngress oldIngress =
      Except.ok (DeepEqual (GoValue.IngressSpec oldSpec)
        (GoValue.IngressSpec newIngress.Spec)) := by
  unfold IngressEqual
  simp only [h1, h2]

theorem IngressEqual_congr (J : JSON IngressSpec) (newIngress oldIngress oldIngress' : Ingress)
    (h : oldIngress'.Annotations.get LastAppliedConfigAnnotation
      = oldIngress.Annotations.get LastAppliedConfigAnnotation) :
    IngressEqual J newIngress oldIngress' = IngressEqual J newIngress oldIngress := by
  unfold IngressEqual
  rw [h]

theorem Ingress_semEq_merged (x : Ingress) (annotations labels : GoMap String)
    (hl : x.Labels = labels) (ha : ∀ k, x.Annotations.get k = annotations.get k) :
    DeepEqual (GoValue.IngressPtr x)
      (GoValue.IngressPtr { x with Annotations := annotations, Labels := labels }) = true := by
  show Ingress.semEq _ _ = true
  unfold Ingress.semEq
  simp only [Bool.and_eq_true, decide_eq_true_eq]
  exact ⟨ObjectMeta.semEq_of_get _ _ rfl rfl hl ha rfl rfl, trivial⟩

theorem mergeIngress_of_equal (J : JSON IngressSpec) (existing desired : Ingress)
    (h : IngressEqual J desired
      { existing with
        Annotations := GoMap.mk (desired.Annotations.entries.foldr
          (fun kv acc => setEntry kv.1 kv.2 acc) existing.Annotations.entries),
        Labels := desired.Labels } = Except.ok true) :
    mergeIngress J existing desired = Except.ok
      { existing with
        Annotations := GoMap.mk (desired.Annotations.entries.foldr
          (fun kv acc => setEntry kv.1 kv.2 acc) existing.Annotations.entries),
        Labels := desired.Labels } := by
  unfold mergeIngress
  simp only [GoMap.rangeAssign_orEmpty, h]
  rfl

theorem mergeIngress_stable (J : JSON IngressSpec) (existing desired m1 : Ingress)
    (hno : desired.Annotations.get LastAppliedConfigAnnotation = none)
    (hrt : ∀ b, J.Marshal desired.Spec = Except.ok b → ∃ y, J.Unmarshal b = Except.ok y ∧
      DeepEqual (GoValue.IngressSpec y) (GoValue.IngressSpec desired.Spec) = true)
    (h : mergeIngress J existing desired = Except.ok m1) :
    ∃ m2, mergeIngress J m1 desired = Except.ok m2 ∧
      DeepEqual (GoValue.IngressPtr m1) (GoValue.IngressPtr m2) = true := by
  have key : m1.Labels = desired.Labels ∧
      (∀ k v, desired.Annotations.get k = some v → m1.Annotations.get k = some v) ∧
      IngressEqual J desired m1 = Except.ok true := by
    unfold mergeIngress at h
    simp only [GoMap.rangeAssign_orEmpty, GoMap.set_mk] at h
    split at h
    · cases h
    · rename_i equal hequal
      cases equal with
      | true =>
        simp only [Bool.not_true, Bool.false_eq_true, reduceIte] at h
        cases h
        exact ⟨rfl, fun k v hv => GoMap.get_merged_of_some _ _ k v hv, hequal⟩
      | false =>
        simp only [Bool.not_false, reduceIte] at h
        split at h
        · cases h
        · rename_i b hb
          obtain ⟨y, hy, hyeq⟩ := hrt b hb
          have hlac : ∀ k v, desired.Annotations.get k = some v →
              (GoMap.mk (setEntry LastAppliedConfigAnnotation b
                (desired.Annotations.entries.foldr (fun kv acc => setEntry kv.1 kv.2 acc)
                  existing.Annotations.entries))).get k = some v := by
            intro k v hv
            rw [GoMap.get_mk_setEntry]
            have hk : ¬ LastAppliedConfigAnnotation = k := by
              intro e
              rw [← e, hno] at hv
              cases hv
            rw [if_neg hk]
            exact GoMap.get_merged_of_some _ _ k v hv
          cases h
          refine ⟨rfl, hlac, ?_⟩
          rw [IngressEqual_of_get J desired _ b y (by simp [GoMap.get_mk_setEntry]) hy, hyeq]
  obtain ⟨hl, ha, heq⟩ := key
  have heq' : IngressEqual J desired
      { m1 with
        Annotations := GoMap.mk (desired.Annotations.entries.foldr
          (fun kv acc => setEntry kv.1 kv.2 acc) m1.Annotations.entries),
        Labels := desired.Labels } = Except.ok true := by
    rw [IngressEqual_congr J desired m1 _ (GoMap.get_merged_absorb _ _ ha _).symm]
    exact heq
  exact ⟨_, mergeIngress_of_equal J m1 desired heq',
    Ingress_semEq_merged m1 _ _ hl (GoMap.get_merged_absorb _ _ ha)⟩

theorem mergeService_key (J : JSON ServiceSpec) (existing desired merged : Service)
    (h : mergeService J existing desired = Except.ok merged) : keyOf merged = keyOf existing := by
  unfold mergeService at h
  simp only [GoMap.rangeAssign_orEmpty, GoMap.set_mk] at h
  repeat' split at h
  all_goals cases h
  all_goals rfl

theorem mergeIngress_key (J : JSON IngressSpec) (existing desired merged : Ingress)
    (h : mergeIngress J existing desired = Except.ok merged) : keyOf merged = keyOf existing := by
  unfold mergeIngress at h
  simp only [GoMap.rangeAssign_orEmpty, GoMap.set_mk] at h
  repeat' split at h
  all_goals cases h
  all_goals rfl

theorem mergeConfigMap_key (existing desired merged : ConfigMap)
    (h : mergeConfigMap existing desired = Except.ok merged) : keyOf merged = keyOf existing := by
  rw [mergeConfigMap_eq] at h
  cases h
  rfl

theorem mergeSecret_key (existing desired merged : Secret)
    (h : mergeSecret existing desired = Except.ok merged) : keyOf merged = keyOf existing := by
  rw [mergeSecret_eq] at h
  cases h
  rfl

theorem CreateOrUpdate_memClient_err_none {α : Type} [RuntimeObject α] (mergeFn : MergeFn α)
    (d c : α) (s : MemStore α)
    (hclone : EmptyClone d = Except.ok c)
    (hkey : ObjectKeyFromObject c = Except.ok (keyOf d))
    (hmerge : ∀ e m, mergeFn e d = Except.ok m → keyOf m = keyOf e)
    (htotal : ∀ e, ∃ m, mergeFn e d = Except.ok m) :
    (CreateOrUpdate (memClient α) d mergeFn s).err = none := by
  cases hf : MemStore.find (keyOf d) s with
  | none => rw [CreateOrUpdate_memClient_absent mergeFn d s hf]
  | some p =>
    obtain ⟨m, hm⟩ := htotal p
    rw [CreateOrUpdate_memClient_present mergeFn d c p s hclone hkey hmerge hf, hm]
    simp only
    split <;> rfl

theorem typedResult_twice {α : Type} [RuntimeObject α] (mergeFn : MergeFn α)
    (d : α) (s : MemStore α)
    (h1 : (CreateOrUpdate (memClient α) d mergeFn s).err = none)
    (h : secondCallIdle (keyOf d) (CreateOrUpdate (memClient α) d mergeFn s)
      (CreateOrUpdate (memClient α) d mergeFn
        (CreateOrUpdate (memClient α) d mergeFn s).store)) :
    secondCallIdle (keyOf d) (typedResult (CreateOrUpdate (memClient α) d mergeFn s))
      (typedResult (CreateOrUpdate (memClient α) d mergeFn
        (typedResult (CreateOrUpdate (memClient α) d mergeFn s)).store)) := by
  rw [typedResult_of_err_none _ h1, typedResult_of_err_none _ h.1]
  exact h

/-! ## Lemmas on port lists without node ports -/

theorem withoutNodePort_carryNodePort (dport : ServicePort) (ports : List ServicePort) :
    withoutNodePort (carryNodePort dport ports) = withoutNodePort dport := by
  induction ports with
  | nil => rfl
  | cons eport rest ih =>
    unfold carryNodePort
    split
    · rfl
    · exact ih

theorem map_withoutNodePort_keepNodePorts (ports dports : List ServicePort) :
    (keepNodePorts ports dports).map withoutNodePort = dports.map withoutNodePort := by
  induction dports with
  | nil => rfl
  | cons p rest ih =>
    simp only [keepNodePorts, List.map_cons, withoutNodePort_carryNodePort, ih]

theorem mergeService_converged (J : JSON ServiceSpec) (existing desired m1 : Service)
    (hrt : ∀ b, J.Marshal desired.Spec = Except.ok b → ∃ y, J.Unmarshal b = Except.ok y ∧
      DeepEqual (GoValue.ServiceSpec y) (GoValue.ServiceSpec desired.Spec) = true)
    (h : mergeService J existing desired = Except.ok m1) :
    ServiceEqual J desired m1 = Except.ok true := by
  unfold mergeService at h
  simp only [GoMap.rangeAssign_orEmpty, GoMap.set_mk] at h
  split at h
  · cases h
  · rename_i equal hequal
    cases equal with
    | true =>
      simp only [Bool.not_true, Bool.false_eq_true, reduceIte] at h
      cases h
      exact hequal
    | false =>
      simp only [Bool.not_false, reduceIte] at h
      split at h
      · cases h
      · rename_i b hb
        obtain ⟨y, hy, hyeq⟩ := hrt b hb
        split at h
        all_goals cases h
        all_goals
          rw [ServiceEqual_of_get J desired _ b y (by simp [GoMap.get_mk_setEntry]) hy, hyeq]

/-! ## The paths of `Reconcile` -/

theorem Reconcile_found_cases {σ : Type} (r : SeaweedReconciler σ) (req : ObjectKey) (s s0 : σ)
    (seaweedCR : Seaweed) (res0 : Result) (err0 : Option Err) (P : Pass σ → Prop)
    (hfound : findSeaweedCustomResourceInstance r req s
      = ((some seaweedCR, false, res0, err0), s0))
    (hmaster : ∀ (res1 : Result) (e1 : Option Err) (s1 : σ),
      r.ensureMaster seaweedCR s0 = ((true, res1, e1), s1) →
      P ⟨res1, e1, s1, [Invocation.mk Step.ensureMaster true res1 e1], []⟩)
    (hvolume : ∀ (res1 res2 : Result) (e1 e2 : Option Err) (s1 s2 : σ),
      r.ensureMaster seaweedCR s0 = ((false, res1, e1), s1) →
      r.ensureVolumeServers seaweedCR s1 = ((true, res2, e2), s2) →
      P ⟨res2, e2, s2, [Invocation.mk Step.ensureMaster false res1 e1,
        Invocation.mk Step.ensureVolumeServers true res2 e2], []⟩)
    (hfiler : ∀ (res1 res2 res3 : Result) (e1 e2 e3 : Option Err) (s1 s2 s3 : σ),
      r.ensureMaster seaweedCR s0 = ((false, res1, e1), s1) →
      r.ensureVolumeServers seaweedCR s1 = ((false, res2, e2), s2) →
      r.ensureFilerServers seaweedCR s2 = ((true, res3, e3), s3) →
      P ⟨res3, e3, s3, [Invocation.mk Step.ensureMaster false res1 e1,
        Invocation.mk Step.ensureVolumeServers false res2 e2,
        Invocation.mk Step.ensureFilerServers true res3 e3], []⟩)
    (hgateway : ∀ (res1 res2 res3 res4 : Result) (e1 e2 e3 e4 : Option Err) (s1 s2 s3 s4 : σ) (gateway : List Invocation),
      seaweedCR.Spec.Gateway.Enabled = true →
      r.ensureMaster seaweedCR s0 = ((false, res1, e1), s1) →
      r.ensureVolumeServers seaweedCR s1 = ((false, res2, e2), s2) →
      r.ensureFilerServers seaweedCR s2 = ((false, res3, e3), s3) →
      ensureS3Gateway r seaweedCR s3 = ((true, res4, e4), s4, gateway) →
      P ⟨res4, e4, s4, [Invocation.mk Step.ensureMaster false res1 e1,
        Invocation.mk Step.ensureVolumeServers false res2 e2,
        Invocation.mk Step.ensureFilerServers false res3 e3,
        Invocation.mk Step.ensureS3Gateway true res4 e4], gateway⟩)
    (hingressOn : ∀ (res1 res2 res3 res4 res5 : Result) (e1 e2 e3 e4 e5 : Option Err) (s1 s2 s3 s4 s5 : σ) (gateway : List Invocation),
      seaweedCR.Spec.Gateway.Enabled = true →
      r.ensureMaster seaweedCR s0 = ((false, res1, e1), s1) →
      r.ensureVolumeServers seaweedCR s1 = ((false, res2, e2), s2) →
      r.ensureFilerServers seaweedCR s2 = ((false, res3, e3), s3) →
      ensureS3Gateway r seaweedCR s3 = ((false, res4, e4), s4, gateway) →
      r.ensureSeaweedIngress seaweedCR s4 = ((true, res5, e5), s5) →
      P ⟨res5, e5, s5, [Invocation.mk Step.ensureMaster false res1 e1,
        Invocation.mk Step.ensureVolumeServers false res2 e2,
        Invocation.mk Step.ensureFilerServers false res3 e3,
        Invocation.mk Step.ensureS3Gateway false res4 e4,
        Invocation.mk Step.ensureSeaweedIngress true res5 e5], gateway⟩)
    (hendOn : ∀ (res1 res2 res3 res4 res5 : Result) (e1 e2 e3 e4 e5 : Option Err) (s1 s2 s3 s4 s5 : σ) (gateway : List Invocation),
      seaweedCR.Spec.Gateway.Enabled = true →
      r.ensureMaster seaweedCR s0 = ((false, res1, e1), s1) →
      r.ensureVolumeServers seaweedCR s1 = ((false, res2, e2), s2) →
      r.ensureFilerServers seaweedCR s2 = ((false, res3, e3), s3) →
      ensureS3Gateway r seaweedCR s3 = ((false, res4, e4), s4, gateway) →
      r.ensureSeaweedIngress seaweedCR s4 = ((false, res5, e5), s5) →
      P ⟨{ RequeueAfter := 5 * Second }, none, s5, [Invocation.mk Step.ensureMaster false res1 e1,
        Invocation.mk Step.ensureVolumeServers false res2 e2,
        Invocation.mk Step.ensureFilerServers false res3 e3,
        Invocation.mk Step.ensureS3Gateway false res4 e4,
        Invocation.mk Step.ensureSeaweedIngress false res5 e5], gateway⟩)
    (hingressOff : ∀ (res1 res2 res3 res5 : Result) (e1 e2 e3 e5 : Option Err) (s1 s2 s3 s5 : σ),
      seaweedCR.Spec.Gateway.Enabled = false →
      r.ensureMaster seaweedCR s0 = ((false, res1, e1), s1) →
      r.ensureVolumeServers seaweedCR s1 = ((false, res2, e2), s2) →
      r.ensureFilerServers seaweedCR s2 = ((false, res3, e3), s3) →
      r.ensureSeaweedIngress seaweedCR s3 = ((true, res5, e5), s5) →
      P ⟨res5, e5, s5, [Invocation.mk Step.ensureMaster false res1 e1,
        Invocation.mk Step.ensureVolumeServers false res2 e2,
        Invocation.mk Step.ensureFilerServers false res3 e3,
        Invocation.mk Step.ensureSeaweedIngress true res5 e5], []⟩)
    (hendOff : ∀ (res1 res2 res3 res5 : Result) (e1 e2 e3 e5 : Option Err) (s1 s2 s3 s5 : σ),
      seaweedCR.Spec.Gateway.Enabled = false →
      r.ensureMaster seaweedCR s0 = ((false, res1, e1), s1) →
      r.ensureVolumeServers seaweedCR s1 = ((false, res2, e2), s2) →
      r.ensureFilerServers seaweedCR s2 = ((false, res3, e3), s3) →
      r.ensureSeaweedIngress seaweedCR s3 = ((false, res5, e5), s5) →
      P ⟨{ RequeueAfter := 5 * Second }, none, s5, [Invocation.mk Step.ensureMaster false res1 e1,
        Invocation.mk Step.ensureVolumeServers false res2 e2,
        Invocation.mk Step.ensureFilerServers false res3 e3,
        Invocation.mk Step.ensureSeaweedIngress false res5 e5], []⟩)
    : P (Reconcile r req s) := by
  rcases h1 : r.ensureMaster seaweedCR s0 with ⟨⟨d1, res1, e1⟩, s1⟩
  cases d1 with
  | true =>
    have hp : Reconcile r req s =
        ⟨res1, e1, s1, [Invocation.mk Step.ensureMaster true res1 e1], []⟩ := by
      unfold Reconcile
      rw [hfound]
      simp [h1]
    rw [hp]
    exact hmaster _ _ _ h1
  | false =>
    rcases h2 : r.ensureVolumeServers seaweedCR s1 with ⟨⟨d2, res2, e2⟩, s2⟩
    cases d2 with
    | true =>
      have hp : Reconcile r req s =
          ⟨res2, e2, s2, [Invocation.mk Step.ensureMaster false res1 e1,
            Invocation.mk Step.ensureVolumeServers true res2 e2], []⟩ := by
        unfold Reconcile
        rw [hfound]
        simp [h1, h2]
      rw [hp]
      exact hvolume _ _ _ _ _ _ h1 h2
    | false =>
      rcases h3 : r.ensureFilerServers seaweedCR s2 with ⟨⟨d3, res3, e3⟩, s3⟩
      cases d3 with
      | true =>
        have hp : Reconcile r req s =
            ⟨res3, e3, s3, [Invocation.mk Step.ensureMaster false res1 e1,
              Invocation.mk Step.ensureVolumeServers false res2 e2,
              Invocation.mk Step.ensureFilerServers true res3 e3], []⟩ := by
          unfold Reconcile
          rw [hfound]
          simp [h1, h2, h3]
        rw [hp]
        exact hfiler _ _ _ _ _ _ _ _ _ h1 h2 h3
      | false =>
        cases hE : seaweedCR.Spec.Gateway.Enabled with
        | false =>
          rcases h5 : r.ensureSeaweedIngress seaweedCR s3 with ⟨⟨d5, res5, e5⟩, s5⟩
          cases d5 with
          | true =>
            have hp : Reconcile r req s =
                ⟨res5, e5, s5, [Invocation.mk Step.ensureMaster false res1 e1,
                  Invocation.mk Step.ensureVolumeServers false res2 e2,
                  Invocation.mk Step.ensureFilerServers false res3 e3,
                  Invocation.mk Step.ensureSeaweedIngress true res5 e5], []⟩ := by
              unfold Reconcile
              rw [hfound]
              simp [h1, h2, h3, h5, hE, reconcileIngress]
            rw [hp]
            exact hingressOff _ _ _ _ _ _ _ _ _ _ _ _ hE h1 h2 h3 h5
          | false =>
            have hp : Reconcile r req s =
                ⟨{ RequeueAfter := 5 * Second }, none, s5, [Invocation.mk Step.ensureMaster false res1 e1,
                  Invocation.mk Step.ensureVolumeServers false res2 e2,
                  Invocation.mk Step.ensureFilerServers false res3 e3,
                  Invocation.mk Step.ensureSeaweedIngress false res5 e5], []⟩ := by
              unfold Reconcile
              rw [hfound]
              simp [h1, h2, h3, h5, hE, reconcileIngress]
            rw [hp]
            exact hendOff _ _ _ _ _ _ _ _ _ _ _ _ hE h1 h2 h3 h5
        | true =>
          rcases h4 : ensureS3Gateway r seaweedCR s3 with ⟨⟨d4, res4, e4⟩, s4, gw⟩
          cases d4 with
          | true =>
            have hp : Reconcile r req s =
                ⟨res4, e4, s4, [Invocation.mk Step.ensureMaster false res1 e1,
                  Invocation.mk Step.ensureVolumeServers false res2 e2,
                  Invocation.mk Step.ensureFilerServers false res3 e3,
                  Invocation.mk Step.ensureS3Gateway true res4 e4], gw⟩ := by
              unfold Reconcile
              rw [hfound]
              simp [h1, h2, h3, h4, hE]
            rw [hp]
            exact hgateway _ _ _ _ _ _ _ _ _ _ _ _ _ hE h1 h2 h3 h4
          | false =>
            rcases h5 : r.ensureSeaweedIngress seaweedCR s4 with ⟨⟨d5, res5, e5⟩, s5⟩
            cases d5 with
            | true =>
              have hp : Reconcile r req s =
                  ⟨res5, e5, s5, [Invocation.mk Step.ensureMaster false res1 e1,
                    Invocation.mk Step.ensureVolumeServers false res2 e2,
                    Invocation.mk Step.ensureFilerServers false res3 e3,
                    Invocation.mk Step.ensureS3Gateway false res4 e4,
                    Invocation.mk Step.ensureSeaweedIngress true res5 e5], gw⟩ := by
                unfold Reconcile
                rw [hfound]
                simp [h1, h2, h3, h4, h5, hE, reconcileIngress]
              rw [hp]
              exact hingressOn _ _ _ _ _ _ _ _ _ _ _ _ _ _ _ _ hE h1 h2 h3 h4 h5
            | false =>
              have hp : Reconcile r req s =
                  ⟨{ RequeueAfter := 5 * Second }, none, s5, [Invocation.mk Step.ensureMaster false res1 e1,
                    Invocation.mk Step.ensureVolumeServers false res2 e2,
                    Invocation.mk Step.ensureFilerServers false res3 e3,
                    Invocation.mk Step.ensureS3Gateway false res4 e4,
                    Invocation.mk Step.ensureSeaweedIngress false res5 e5], gw⟩ := by
                unfold Reconcile
                rw [hfound]
                simp [h1, h2, h3, h4, h5, hE, reconcileIngress]
              rw [hp]
              exact hendOn _ _ _ _ _ _ _ _ _ _ _ _ _ _ _ _ hE h1 h2 h3 h4 h5

theorem ensureS3Gateway_trace {σ : Type} (r : SeaweedReconciler σ) (seaweedCR : Seaweed)
    (s : σ) :
    ((ensureS3Gateway r seaweedCR s).2.2.map Invocation.step).head?
        = some Step.ensureGatewayService ∧
      (∀ x ∈ (ensureS3Gateway r seaweedCR s).2.2.dropLast, x.done = false) ∧
      ∃ x, (ensureS3Gateway r seaweedCR s).2.2.getLast? = some x ∧
        (ensureS3Gateway r seaweedCR s).1 = (x.done, x.result, x.err) := by
  rcases h1 : r.ensureGatewayService seaweedCR s with ⟨⟨d1, res1, e1⟩, s1⟩
  cases d1 with
  | true => simp [ensureS3Gateway, h1]
  | false =>
    rcases h2 : r.ensureGatewaySecret seaweedCR s1 with ⟨⟨d2, res2, e2⟩, s2⟩
    cases d2 with
    | true => simp [ensureS3Gateway, h1, h2]
    | false =>
      rcases h3 : r.ensureGatewayDeployment seaweedCR s2 with ⟨⟨d3, res3, e3⟩, s3⟩
      simp [ensureS3Gateway, h1, h2, h3]

theorem ensureS3Gateway_eq {σ : Type} (r : SeaweedReconciler σ) (seaweedCR : Seaweed)
    (s sa sb sc : σ) (a b c : EnsureResult)
    (ha : r.ensureGatewayService seaweedCR s = (a, sa))
    (hb : r.ensureGatewaySecret seaweedCR sa = (b, sb))
    (hc : r.ensureGatewayDeployment seaweedCR sb = (c, sc)) :
    ensureS3Gateway r seaweedCR s =
      if a.1 then (a, sa, [recorded Step.ensureGatewayService a])
      else if b.1 then
        (b, sb, [recorded Step.ensureGatewayService a, recorded Step.ensureGatewaySecret b])
      else
        (c, sc, [recorded Step.ensureGatewayService a, recorded Step.ensureGatewaySecret b,
          recorded Step.ensureGatewayDeployment c]) := by
  obtain ⟨d1, res1, e1⟩ := a
  obtain ⟨d2, res2, e2⟩ := b
  obtain ⟨d3, res3, e3⟩ := c
  cases d1 with
  | true => simp [ensureS3Gateway, ha, recorded]
  | false =>
    cases d2 with
    | true => simp [ensureS3Gateway, ha, hb, recorded]
    | false => simp [ensureS3Gateway, ha, hb, hc, recorded]

theorem ensureS3Gateway_rule {σ : Type} (r : SeaweedReconciler σ) (seaweedCR : Seaweed)
    (s : σ) :
    (∀ x ∈ (ensureS3Gateway r seaweedCR s).2.2, x.done = true →
      (ensureS3Gateway r seaweedCR s).2.2.getLast? = some x ∧
      (ensureS3Gateway r seaweedCR s).1 = (x.done, x.result, x.err) ∧
      ∀ n, nextGatewayEnsurer x.step = some n →
        n ∉ (ensureS3Gateway r seaweedCR s).2.2.map Invocation.step) ∧
    (∀ x ∈ (ensureS3Gateway r seaweedCR s).2.2, x.done = false →
      ∀ n, nextGatewayEnsurer x.step = some n →
        n ∈ (ensureS3Gateway r seaweedCR s).2.2.map Invocation.step) := by
  rcases h1 : r.ensureGatewayService seaweedCR s with ⟨⟨d1, res1, e1⟩, s1⟩
  cases d1 with
  | true => simp [ensureS3Gateway, h1, nextGatewayEnsurer]
  | false =>
    rcases h2 : r.ensureGatewaySecret seaweedCR s1 with ⟨⟨d2, res2, e2⟩, s2⟩
    cases d2 with
    | true => simp [ensureS3Gateway, h1, h2, nextGatewayEnsurer]
    | false =>
      rcases h3 : r.ensureGatewayDeployment seaweedCR s2 with ⟨⟨d3, res3, e3⟩, s3⟩
      cases d3 <;> simp [ensureS3Gateway, h1, h2, h3, nextGatewayEnsurer]

/-! ## Lemmas on the deployment merge -/

theorem mergeDeployment_of_marshal (J : JSON PodSpec) (existing desired : Deployment)
    (b : String) (hb : J.Marshal desired.Spec.Template.Spec = Except.ok b)
    (htpl : existing.Spec.Template.Annotations.isNil = false ∨
      desired.Spec.Template.Annotations.entries = []) :
    ∃ merged, mergeDeployment J existing desired = Except.ok merged ∧
      merged.Spec.Template.Spec = desired.Spec.Template.Spec ∧
      merged.Annotations = GoMap.mk (setEntry LastAppliedConfigAnnotation b
        (desired.Annotations.entries.foldr (fun kv acc => setEntry kv.1 kv.2 acc)
          existing.Annotations.entries)) := by
  have hrange : ∃ t, desired.Spec.Template.Annotations.rangeAssign
      existing.Spec.Template.Annotations = Except.ok t := by
    cases hnil : existing.Spec.Template.Annotations with
    | mk l => exact ⟨_, rfl⟩
    | nil =>
      rcases htpl with h | h
      · rw [hnil] at h
        cases h
      · exact ⟨GoMap.nil, by simp [GoMap.rangeAssign, h]⟩
  obtain ⟨t, ht⟩ := hrange
  unfold mergeDeployment
  simp only [GoMap.rangeAssign_orEmpty, GoMap.set_mk, ht, hb,
    DeploymentPodSpecChanged_eq_true, if_true]
  exact ⟨_, rfl, rfl, rfl⟩

theorem addSpecToAnnotation_of_marshal (J : JSON PodSpec) (d : Deployment) (b : String)
    (hb : J.Marshal d.Spec.Template.Spec = Except.ok b) :
    addSpecToAnnotation J d = Except.ok
      { d with Annotations := GoMap.mk (setEntry LastAppliedPodTemplate b d.Annotations.entries) } := by
  unfold addSpecToAnnotation
  simp only [hb, GoMap.orEmpty_set]

/-! ## Lemmas on the call that follows a creation -/

theorem ObjectMeta.semEq_false_of_get_ne (a b : ObjectMeta) (k : String)
    (h : a.Annotations.get k ≠ b.Annotations.get k) : a.semEq b = false := by
  cases hs : a.semEq b with
  | false => rfl
  | true =>
    unfold ObjectMeta.semEq at hs
    simp only [Bool.and_eq_true] at hs
    exact absurd ((GoMap.semEq_iff _ _).1 hs.1.1.2 k) h

theorem mergeService_unrecorded (J : JSON ServiceSpec) (existing desired : Service) (b : String)
    (hd : desired.Annotations.get LastAppliedConfigAnnotation = none)
    (he : existing.Annotations.get LastAppliedConfigAnnotation = none)
    (hb : J.Marshal desired.Spec = Except.ok b) :
    ∃ m, mergeService J existing desired = Except.ok m ∧
      m.Annotations.get LastAppliedConfigAnnotation = some b ∧
      DeepEqual (GoValue.ServicePtr existing) (GoValue.ServicePtr m) = false := by
  have hequal : ServiceEqual J desired
      { existing with
        Annotations := GoMap.mk (desired.Annotations.entries.foldr
          (fun kv acc => setEntry kv.1 kv.2 acc) existing.Annotations.entries),
        Labels := desired.Labels } = Except.ok false := by
    unfold ServiceEqual
    simp only [GoMap.get_mk_foldr, hd, he]
    rfl
  have hfalse : ∀ m : Service, m.Annotations.get LastAppliedConfigAnnotation = some b →
      DeepEqual (GoValue.ServicePtr existing) (GoValue.ServicePtr m) = false := by
    intro m hm
    show Service.semEq existing m = false
    unfold Service.semEq
    rw [ObjectMeta.semEq_false_of_get_ne _ _ LastAppliedConfigAnnotation
      (by rw [he, hm]; exact fun e => by cases e)]
    rfl
  unfold mergeService
  simp only [GoMap.rangeAssign_orEmpty, GoMap.set_mk, hequal, hb, Bool.not_false, reduceIte]
  split
  · refine ⟨_, rfl, ?_, hfalse _ ?_⟩ <;> simp [GoMap.get_mk_setEntry]
  · refine ⟨_, rfl, ?_, hfalse _ ?_⟩ <;> simp [GoMap.get_mk_setEntry]

theorem mergeIngress_unrecorded (J : JSON IngressSpec) (existing desired : Ingress) (b : String)
    (hd : desired.Annotations.get LastAppliedConfigAnnotation = none)
    (he : existing.Annotations.get LastAppliedConfigAnnotation = none)
    (hb : J.Marshal desired.Spec = Except.ok b) :
    ∃ m, mergeIngress J existing desired = Except.ok m ∧
      m.Annotations.get LastAppliedConfigAnnotation = some b ∧
      DeepEqual (GoValue.IngressPtr existing) (GoValue.IngressPtr m) = false := by
  have hequal : IngressEqual J desired
      { existing with
        Annotations := GoMap.mk (desired.Annotations.entries.foldr
          (fun kv acc => setEntry kv.1 kv.2 acc) existing.Annotations.entries),
        Labels := desired.Labels } = Except.ok false := by
    unfold IngressEqual
    simp only [GoMap.get_mk_foldr, hd, he]
    rfl
  have hfalse : ∀ m : Ingress, m.Annotations.get LastAppliedConfigAnnotation = some b →
      DeepEqual (GoValue.IngressPtr existing) (GoValue.IngressPtr m) = false := by
    intro m hm
    show Ingress.semEq existing m = false
    unfold Ingress.semEq
    rw [ObjectMeta.semEq_false_of_get_ne _ _ LastAppliedConfigAnnotation
      (by rw [he, hm]; exact fun e => by cases e)]
    rfl
  unfold mergeIngress
  simp only [GoMap.rangeAssign_orEmpty, GoMap.set_mk, hequal, hb, Bool.not_false, reduceIte]
  refine ⟨_, rfl, ?_, hfalse _ ?_⟩ <;> simp [GoMap.get_mk_setEntry]

theorem CreateOrUpdate_memClient_after_create {α : Type} [RuntimeObject α]
    (mergeFn : MergeFn α) (d c m : α) (s : MemStore α)
    (hclone : EmptyClone d = Except.ok c)
    (hkey : ObjectKeyFromObject c = Except.ok (keyOf d))
    (hmerge : ∀ e m, mergeFn e d = Except.ok m → keyOf m = keyOf e)
    (habsent : MemStore.find (keyOf d) s = none)
    (hm : mergeFn d d = Except.ok m)
    (hne : DeepEqual (RuntimeObject.toValue d) (RuntimeObject.toValue m) = false) :
    typedResult (CreateOrUpdate (memClient α) d mergeFn s)
      = ⟨some d, none, d :: s, [Call.Create d]⟩ ∧
    typedResult (CreateOrUpdate (memClient α) d mergeFn
        (typedResult (CreateOrUpdate (memClient α) d mergeFn s)).store)
      = ⟨some m, none, m :: d :: s, [Call.Create d, Call.Get (keyOf d), Call.Update m]⟩ := by
  have h1 : typedResult (CreateOrUpdate (memClient α) d mergeFn s)
      = ⟨some d, none, d :: s, [Call.Create d]⟩ := by
    rw [CreateOrUpdate_memClient_absent mergeFn d s habsent]
    rfl
  have hf' : MemStore.find (keyOf d) (d :: s) = some d := by
    simp [MemStore.find]
  refine ⟨h1, ?_⟩
  rw [h1]
  simp only
  rw [CreateOrUpdate_memClient_present mergeFn d c d (d :: s) hclone hkey hmerge hf', hm]
  simp only [hne, Bool.not_false, reduceIte]
  rfl
/-! ## The claims -/

/-- C1 as stated fails for the service kind on a store in which the object does not exist
yet: the first call creates the desired service, both calls succeed, and the second call
issues an `Update`, which records the last-applied-configuration snapshot. -/
theorem CreateOrUpdateService_after_create_updates :
    (CreateOrUpdateService serviceJSON (memClient Service) desiredNodePortService []).err
      = none ∧
    (CreateOrUpdateService serviceJSON (memClient Service) desiredNodePortService []).calls
      = [Call.Create desiredNodePortService] ∧
    (CreateOrUpdateService serviceJSON (memClient Service) desiredNodePortService
      (CreateOrUpdateService serviceJSON (memClient Service) desiredNodePortService
        []).store).err = none ∧
    (CreateOrUpdateService serviceJSON (memClient Service) desiredNodePortService
      (CreateOrUpdateService serviceJSON (memClient Service) desiredNodePortService
        []).store).calls.map Call.isUpdate = [false, false, true] ∧
    ¬ secondCallIdle (keyOf desiredNodePortService)
      (CreateOrUpdateService serviceJSON (memClient Service) desiredNodePortService [])
      (CreateOrUpdateService serviceJSON (memClient Service) desiredNodePortService
        (CreateOrUpdateService serviceJSON (memClient Service) desiredNodePortService
          []).store) := by
  refine ⟨by rfl, by rfl, by rfl, by rfl, ?_⟩
  intro h
  have h2 := h.2.1
  revert h2
  decide

/-- C1, amended. On the in-memory store, with no other write in between: for the config
map and the secret kinds, in every store state and for every desired object, both of two
successive calls succeed and the second is idle, that is it issues no `Update`, leaves the
store unchanged and returns an object semantically equal to the stored one. For the service
and the ingress kinds, with a desired object that carries no last-applied-configuration
annotation of its own: when the object existed before the first call, the first call
succeeded, and decoding the encoding of the desired spec gives a spec semantically equal to
it, the second call is idle; when the object did not exist and the desired spec can be
encoded, the first call creates the desired object, and the second call succeeds and
issues exactly one `Update`, of an object that carries the encoding of the desired spec as
its last-applied-configuration annotation. -/
theorem CreateOrUpdate_twice_no_update :
    (∀ (s : MemStore ConfigMap) (d : ConfigMap),
      (CreateOrUpdateConfigMap (memClient ConfigMap) d s).err = none ∧
      secondCallIdle (keyOf d) (CreateOrUpdateConfigMap (memClient ConfigMap) d s)
        (CreateOrUpdateConfigMap (memClient ConfigMap) d
          (CreateOrUpdateConfigMap (memClient ConfigMap) d s).store)) ∧
    (∀ (s : MemStore Secret) (d : Secret),
      (CreateOrUpdateSecret (memClient Secret) d s).err = none ∧
      secondCallIdle (keyOf d) (CreateOrUpdateSecret (memClient Secret) d s)
        (CreateOrUpdateSecret (memClient Secret) d
          (CreateOrUpdateSecret (memClient Secret) d s).store)) ∧
    (∀ (J : JSON ServiceSpec) (s : MemStore Service) (d : Service),
      d.Annotations.get LastAppliedConfigAnnotation = none →
      (∀ b, J.Marshal d.Spec = Except.ok b → ∃ y, J.Unmarshal b = Except.ok y ∧
        DeepEqual (GoValue.ServiceSpec y) (GoValue.ServiceSpec d.Spec) = true) →
      MemStore.find (keyOf d) s ≠ none →
      (CreateOrUpdateService J (memClient Service) d s).err = none →
      secondCallIdle (keyOf d) (CreateOrUpdateService J (memClient Service) d s)
        (CreateOrUpdateService J (memClient Service) d
          (CreateOrUpdateService J (memClient Service) d s).store)) ∧
    (∀ (J : JSON IngressSpec) (s : MemStore Ingress) (d : Ingress),
      d.Annotations.get LastAppliedConfigAnnotation = none →
      (∀ b, J.Marshal d.Spec = Except.ok b → ∃ y, J.Unmarshal b = Except.ok y ∧
        DeepEqual (GoValue.IngressSpec y) (GoValue.IngressSpec d.Spec) = true) →
      MemStore.find (keyOf d) s ≠ none →
      (CreateOrUpdateIngress J (memClient Ingress) d s).err = none →
      secondCallIdle (keyOf d) (CreateOrUpdateIngress J (memClient Ingress) d s)
        (CreateOrUpdateIngress J (memClient Ingress) d
          (CreateOrUpdateIngress J (memClient Ingress) d s).store)) ∧
    (∀ (J : JSON ServiceSpec) (s : MemStore Service) (d : Service) (b : String),
      d.Annotations.get LastAppliedConfigAnnotation = none →
      MemStore.find (keyOf d) s = none →
      J.Marshal d.Spec = Except.ok b →
      CreateOrUpdateService J (memClient Service) d s
        = ⟨some d, none, d :: s, [Call.Create d]⟩ ∧
      ∃ m, CreateOrUpdateService J (memClient Service) d
          (CreateOrUpdateService J (memClient Service) d s).store
          = ⟨some m, none, m :: d :: s, [Call.Create d, Call.Get (keyOf d), Call.Update m]⟩ ∧
        m.Annotations.get LastAppliedConfigAnnotation = some b) ∧
    (∀ (J : JSON IngressSpec) (s : MemStore Ingress) (d : Ingress) (b : String),
      d.Annotations.get LastAppliedConfigAnnotation = none →
      MemStore.find (keyOf d) s = none →
      J.Marshal d.Spec = Except.ok b →
      CreateOrUpdateIngress J (memClient Ingress) d s
        = ⟨some d, none, d :: s, [Call.Create d]⟩ ∧
      ∃ m, CreateOrUpdateIngress J (memClient Ingress) d
          (CreateOrUpdateIngress J (memClient Ingress) d s).store
          = ⟨some m, none, m :: d :: s, [Call.Create d, Call.Get (keyOf d), Call.Update m]⟩ ∧
        m.Annotations.get LastAppliedConfigAnnotation = some b) := by
  refine ⟨?_, ?_, ?_, ?_, ?_, ?_⟩
  · intro s d
    have h1 : (CreateOrUpdate (memClient ConfigMap) d mergeConfigMap s).err = none :=
      CreateOrUpdate_memClient_err_none mergeConfigMap d
        ({ Name := d.Name, Namespace := d.Namespace } : ConfigMap) s (by rfl) (by rfl)
        (fun e m h => mergeConfigMap_key e d m h) (fun e => ⟨_, mergeConfigMap_eq e d⟩)
    refine ⟨by rw [CreateOrUpdateConfigMap, typedResult_err]; exact h1, ?_⟩
    unfold CreateOrUpdateConfigMap
    apply typedResult_twice mergeConfigMap d s h1
    apply CreateOrUpdate_memClient_twice mergeConfigMap d
      ({ Name := d.Name, Namespace := d.Namespace } : ConfigMap) s (by rfl) (by rfl)
      (fun e m h => mergeConfigMap_key e d m h) _ _ h1
    · intro e m1 hm
      rw [mergeConfigMap_eq] at hm
      cases hm
      exact mergeConfigMap_absorb _ d rfl rfl
        (fun k v hv => GoMap.get_merged_of_some _ _ k v hv)
    · intro _
      exact mergeConfigMap_absorb d d rfl rfl (fun k v hv => hv)
  · intro s d
    have h1 : (CreateOrUpdate (memClient Secret) d mergeSecret s).err = none :=
      CreateOrUpdate_memClient_err_none mergeSecret d
        ({ Name := d.Name, Namespace := d.Namespace } : Secret) s (by rfl) (by rfl)
        (fun e m h => mergeSecret_key e d m h) (fun e => ⟨_, mergeSecret_eq e d⟩)
    refine ⟨by rw [CreateOrUpdateSecret, typedResult_err]; exact h1, ?_⟩
    unfold CreateOrUpdateSecret
    apply typedResult_twice mergeSecret d s h1
    apply CreateOrUpdate_memClient_twice mergeSecret d
      ({ Name := d.Name, Namespace := d.Namespace } : Secret) s (by rfl) (by rfl)
      (fun e m h => mergeSecret_key e d m h) _ _ h1
    · intro e m1 hm
      rw [mergeSecret_eq] at hm
      cases hm
      exact mergeSecret_absorb _ d rfl rfl
        (fun k v hv => GoMap.get_merged_of_some _ _ k v hv)
    · intro _
      exact mergeSecret_absorb d d rfl rfl (fun k v hv => hv)
  · intro J s d hno hrt hfind h1
    rw [CreateOrUpdateService, typedResult_err] at h1
    unfold CreateOrUpdateService
    apply typedResult_twice (mergeService J) d s h1
    apply CreateOrUpdate_memClient_twice (mergeService J) d
      ({ Name := d.Name, Namespace := d.Namespace } : Service) s (by rfl) (by rfl)
      (fun e m h => mergeService_key J e d m h) _ _ h1
    · intro e m1 hm
      exact mergeService_stable J e d m1 hno hrt hm
    · intro habsent
      exact absurd habsent hfind
  · intro J s d hno hrt hfind h1
    rw [CreateOrUpdateIngress, typedResult_err] at h1
    unfold CreateOrUpdateIngress
    apply typedResult_twice (mergeIngress J) d s h1
    apply CreateOrUpdate_memClient_twice (mergeIngress J) d
      ({ Name := d.Name, Namespace := d.Namespace } : Ingress) s (by rfl) (by rfl)
      (fun e m h => mergeIngress_key J e d m h) _ _ h1
    · intro e m1 hm
      exact mergeIngress_stable J e d m1 hno hrt hm
    · intro habsent
      exact absurd habsent hfind
  · intro J s d b hno habsent hb
    obtain ⟨m, hm, hlac, hne⟩ := mergeService_unrecorded J d d b hno hno hb
    have h := CreateOrUpdate_memClient_after_create (mergeService J) d
      ({ Name := d.Name, Namespace := d.Namespace } : Service) m s (by rfl) (by rfl)
      (fun e m h => mergeService_key J e d m h) habsent hm hne
    exact ⟨h.1, m, h.2, hlac⟩
  · intro J s d b hno habsent hb
    obtain ⟨m, hm, hlac, hne⟩ := mergeIngress_unrecorded J d d b hno hno hb
    have h := CreateOrUpdate_memClient_after_create (mergeIngress J) d
      ({ Name := d.Name, Namespace := d.Namespace } : Ingress) m s (by rfl) (by rfl)
      (fun e m h => mergeIngress_key J e d m h) habsent hm hne
    exact ⟨h.1, m, h.2, hlac⟩

/-- C1, amended, at the live NodePort service already in the store: the first call merges
and issues one `Update`, and the second call is idle. -/
theorem CreateOrUpdate_twice_no_update_witness :
    desiredNodePortService.Annotations.get LastAppliedConfigAnnotation = none ∧
    MemStore.find (keyOf desiredNodePortService) [liveNodePortService] ≠ none ∧
    (CreateOrUpdateService serviceJSON (memClient Service) desiredNodePortService
      [liveNodePortService]).err = none ∧
    (CreateOrUpdateService serviceJSON (memClient Service) desiredNodePortService
      [liveNodePortService]).calls.map Call.isUpdate = [false, false, true] ∧
    secondCallIdle (keyOf desiredNodePortService)
      (CreateOrUpdateService serviceJSON (memClient Service) desiredNodePortService
        [liveNodePortService])
      (CreateOrUpdateService serviceJSON (memClient Service) desiredNodePortService
        (CreateOrUpdateService serviceJSON (memClient Service) desiredNodePortService
          [liveNodePortService]).store) :=
  ⟨by rfl, by decide, by rfl, by rfl,
    CreateOrUpdate_twice_no_update.2.2.1 serviceJSON [liveNodePortService]
      desiredNodePortService (by rfl)
      (fun b hb => by
        cases hb
        exact ⟨desiredNodePortService.Spec, by rfl, by rfl⟩)
      (by decide) (by rfl)⟩
/-- C2. No-clobber of the cluster-assigned address: whenever the service merge strategy
succeeds, the merged object's `Spec.ClusterIP` is the live object's, whatever the oracle
answered and whatever `ClusterIP` the desired object carries. -/
theorem mergeService_keeps_ClusterIP (J : JSON ServiceSpec)
    (existingSvc desiredSvc merged : Service)
    (h : mergeService J existingSvc desiredSvc = Except.ok merged) :
    merged.Spec.ClusterIP = existingSvc.Spec.ClusterIP := by
  unfold mergeService at h
  simp only [GoMap.rangeAssign_orEmpty] at h
  repeat' split at h
  all_goals cases h
  all_goals rfl

/-- C2 at the live and desired NodePort services: the merge succeeds, the spec is taken
from desired and the address stays `10.0.0.7`. -/
theorem mergeService_keeps_ClusterIP_witness :
    ∃ merged, mergeService serviceJSON liveNodePortService desiredNodePortService
        = Except.ok merged ∧
      merged.Spec.SessionAffinity = "" ∧ merged.Spec.ClusterIP = "10.0.0.7" := by
  refine ⟨_, rfl, by decide, ?_⟩
  exact mergeService_keeps_ClusterIP serviceJSON liveNodePortService desiredNodePortService _ rfl
/-- C3. Port pairing: when the service merge strategy finds the live service not converged
and the live type and the desired type are both NodePort or LoadBalancer, the merge
succeeds as soon as the desired spec can be encoded, and the merged port list has the
length and order of the desired list; each desired port `p` becomes `p` with the `NodePort`
of the first live port with the same `Port` and `Protocol`, or stays `p` when no live port
has them. -/
theorem mergeService_port_pairing (J : JSON ServiceSpec) (existingSvc desiredSvc : Service)
    (annotations : GoMap String) (b : String)
    (hann : desiredSvc.Annotations.rangeAssign existingSvc.Annotations.orEmpty
      = Except.ok annotations)
    (hneq : ServiceEqual J desiredSvc
      { existingSvc with Annotations := annotations, Labels := desiredSvc.Labels }
      = Except.ok false)
    (hb : J.Marshal desiredSvc.Spec = Except.ok b)
    (hlive : existingSvc.Spec.Type_ = ServiceTypeNodePort ∨
      existingSvc.Spec.Type_ = ServiceTypeLoadBalancer)
    (hdes : desiredSvc.Spec.Type_ = ServiceTypeNodePort ∨
      desiredSvc.Spec.Type_ = ServiceTypeLoadBalancer) :
    ∃ merged, mergeService J existingSvc desiredSvc = Except.ok merged ∧
      merged.Spec.Ports.length = desiredSvc.Spec.Ports.length ∧
      merged.Spec.Ports = desiredSvc.Spec.Ports.map (fun p =>
        match existingSvc.Spec.Ports.find?
            (fun q => decide (q.Port = p.Port ∧ q.Protocol = p.Protocol)) with
        | some q => { p with NodePort := q.NodePort }
        | none => p) := by
  rw [GoMap.rangeAssign_orEmpty] at hann
  cases hann
  unfold mergeService
  simp only [GoMap.rangeAssign_orEmpty, hneq, hb, GoMap.set, Bool.not_false, if_true]
  rw [if_pos ⟨hlive, hdes⟩]
  refine ⟨_, rfl, ?_, ?_⟩
  · simp [keepNodePorts_eq_map]
  · simp only [keepNodePorts_eq_map]
    apply List.map_congr_left
    intro p _
    exact carryNodePort_eq_find p existingSvc.Spec.Ports

/-- C3 at live ports `80/TCP -> 30080`, `443/TCP -> 30443` and desired ports `443/TCP`,
`80/TCP`, `8080/TCP`: the merged node ports are `30443`, `30080` and none. -/
theorem mergeService_port_pairing_witness :
    ∃ merged, mergeService serviceJSON liveNodePortService desiredNodePortService
        = Except.ok merged ∧
      merged.Spec.Ports.length = 3 ∧
      merged.Spec.Ports.map (fun p => (p.Port, p.Protocol, p.NodePort)) =
        [(443, "TCP", 30443), (80, "TCP", 30080), (8080, "TCP", 0)] := by
  obtain ⟨merged, hm, hlen, hports⟩ :=
    mergeService_port_pairing serviceJSON liveNodePortService desiredNodePortService
      (GoMap.mk [("example.com/owner", "ops")]) "ServiceSpec NodePort " rfl rfl rfl
      (Or.inl rfl) (Or.inl rfl)
  refine ⟨merged, hm, hlen, ?_⟩
  rw [hports]
  decide
/-- C4. Convergence short-circuit and order: once the record is found, `Reconcile` is the
specification's sequencer run on the role ensurers in the order master, volume servers,
filer, S3 gateway (when enabled), ingress. The ensurers it invokes are a prefix of that
order; every invoked ensurer but the last returned `done = false`; when the last one
returned `done = true` the pass returns exactly its result and error; and when the
volume-server ensurer returned `done = true`, the filer, S3-gateway and ingress ensurers
are not invoked. -/
theorem Reconcile_short_circuit {σ : Type} (r : SeaweedReconciler σ) (req : ObjectKey) (s s0 : σ)
    (seaweedCR : Seaweed) (res0 : Result) (err0 : Option Err)
    (hfound : findSeaweedCustomResourceInstance r req s = ((some seaweedCR, false, res0, err0), s0)) :
    ((Reconcile r req s).result, (Reconcile r req s).err, (Reconcile r req s).store,
        (Reconcile r req s).invoked) = runEnsurers seaweedCR (roleEnsurers r seaweedCR) s0 [] ∧
      (Reconcile r req s).invoked.map Invocation.step <+:
        (roleEnsurers r seaweedCR).map Prod.fst ∧
      (roleEnsurers r seaweedCR).map Prod.fst =
        [Step.ensureMaster, Step.ensureVolumeServers, Step.ensureFilerServers] ++
        (if seaweedCR.Spec.Gateway.Enabled then [Step.ensureS3Gateway] else []) ++
        [Step.ensureSeaweedIngress] ∧
      (∀ x ∈ (Reconcile r req s).invoked.dropLast, x.done = false) ∧
      (∀ x, (Reconcile r req s).invoked.getLast? = some x → x.done = true →
        (Reconcile r req s).result = x.result ∧ (Reconcile r req s).err = x.err) ∧
      (∀ x ∈ (Reconcile r req s).invoked, x.step = Step.ensureVolumeServers → x.done = true →
        ∀ y ∈ (Reconcile r req s).invoked,
          y.step ≠ Step.ensureFilerServers ∧ y.step ≠ Step.ensureS3Gateway ∧
          y.step ≠ Step.ensureSeaweedIngress) := by
  rcases h1 : r.ensureMaster seaweedCR s0 with ⟨⟨d1, res1, e1⟩, s1⟩
  cases d1 with
  | true =>
    have hp : Reconcile r req s =
        ⟨res1, e1, s1,
          [Invocation.mk Step.ensureMaster true res1 e1], []⟩ := by
      unfold Reconcile
      rw [hfound]
      simp [h1]
    rw [hp]
    simp [runEnsurers, roleEnsurers, h1]
    cases seaweedCR.Spec.Gateway.Enabled <;> rfl
  | false =>
    rcases h2 : r.ensureVolumeServers seaweedCR s1 with ⟨⟨d2, res2, e2⟩, s2⟩
    cases d2 with
    | true =>
      have hp : Reconcile r req s =
          ⟨res2, e2, s2,
            [Invocation.mk Step.ensureMaster false res1 e1, Invocation.mk Step.ensureVolumeServers true res2 e2], []⟩ := by
        unfold Reconcile
        rw [hfound]
        simp [h1, h2]
      rw [hp]
      simp [runEnsurers, roleEnsurers, h1, h2]
      cases seaweedCR.Spec.Gateway.Enabled <;> rfl
    | false =>
      rcases h3 : r.ensureFilerServers seaweedCR s2 with ⟨⟨d3, res3, e3⟩, s3⟩
      cases d3 with
      | true =>
        have hp : Reconcile r req s =
            ⟨res3, e3, s3,
              [Invocation.mk Step.ensureMaster false res1 e1, Invocation.mk Step.ensureVolumeServers false res2 e2, Invocation.mk Step.ensureFilerServers true res3 e3], []⟩ := by
          unfold Reconcile
          rw [hfound]
          simp [h1, h2, h3]
        rw [hp]
        simp [runEnsurers, roleEnsurers, h1, h2, h3]
        cases seaweedCR.Spec.Gateway.Enabled <;> rfl
      | false =>
        cases hE : seaweedCR.Spec.Gateway.Enabled with
        | false =>
          rcases h5 : r.ensureSeaweedIngress seaweedCR s3 with ⟨⟨d5, res5, e5⟩, s5⟩
          cases d5 with
          | true =>
            have hp : Reconcile r req s =
                ⟨res5, e5, s5,
                  [Invocation.mk Step.ensureMaster false res1 e1, Invocation.mk Step.ensureVolumeServers false res2 e2, Invocation.mk Step.ensureFilerServers false res3 e3,
                   Invocation.mk Step.ensureSeaweedIngress true res5 e5], []⟩ := by
              unfold Reconcile
              rw [hfound]
              simp [h1, h2, h3, h5, hE, reconcileIngress]
            rw [hp]
            simp [runEnsurers, roleEnsurers, h1, h2, h3, h5, hE]
          | false =>
            have hp : Reconcile r req s =
                ⟨{ RequeueAfter := 5 * Second }, none, s5,
                  [Invocation.mk Step.ensureMaster false res1 e1, Invocation.mk Step.ensureVolumeServers false res2 e2, Invocation.mk Step.ensureFilerServers false res3 e3,
                   Invocation.mk Step.ensureSeaweedIngress false res5 e5], []⟩ := by
              unfold Reconcile
              rw [hfound]
              simp [h1, h2, h3, h5, hE, reconcileIngress]
            rw [hp]
            simp [runEnsurers, roleEnsurers, h1, h2, h3, h5, hE]
        | true =>
          rcases h4 : ensureS3Gateway r seaweedCR s3 with ⟨⟨d4, res4, e4⟩, s4, gw⟩
          cases d4 with
          | true =>
            have hp : Reconcile r req s =
                ⟨res4, e4, s4,
                  [Invocation.mk Step.ensureMaster false res1 e1, Invocation.mk Step.ensureVolumeServers false res2 e2, Invocation.mk Step.ensureFilerServers false res3 e3,
                   Invocation.mk Step.ensureS3Gateway true res4 e4], gw⟩ := by
              unfold Reconcile
              rw [hfound]
              simp [h1, h2, h3, h4, hE]
            rw [hp]
            simp [runEnsurers, roleEnsurers, h1, h2, h3, h4, hE]
          | false =>
            rcases h5 : r.ensureSeaweedIngress seaweedCR s4 with ⟨⟨d5, res5, e5⟩, s5⟩
            cases d5 with
            | true =>
              have hp : Reconcile r req s =
                  ⟨res5, e5, s5,
                    [Invocation.mk Step.ensureMaster false res1 e1, Invocation.mk Step.ensureVolumeServers false res2 e2, Invocation.mk Step.ensureFilerServers false res3 e3, Invocation.mk Step.ensureS3Gateway false res4 e4,
                     Invocation.mk Step.ensureSeaweedIngress true res5 e5], gw⟩ := by
                unfold Reconcile
                rw [hfound]
                simp [h1, h2, h3, h4, h5, hE, reconcileIngress]
              rw [hp]
              simp [runEnsurers, roleEnsurers, h1, h2, h3, h4, h5, hE]
            | false =>
              have hp : Reconcile r req s =
                  ⟨{ RequeueAfter := 5 * Second }, none, s5,
                    [Invocation.mk Step.ensureMaster false res1 e1, Invocation.mk Step.ensureVolumeServers false res2 e2, Invocation.mk Step.ensureFilerServers false res3 e3, Invocation.mk Step.ensureS3Gateway false res4 e4,
                     Invocation.mk Step.ensureSeaweedIngress false res5 e5], gw⟩ := by
                unfold Reconcile
                rw [hfound]
                simp [h1, h2, h3, h4, h5, hE, reconcileIngress]
              rw [hp]
              simp [runEnsurers, roleEnsurers, h1, h2, h3, h4, h5, hE]

/-- C4 at a reconciler whose volume-server ensurer stops the pass: the record is found,
only the master and volume-server ensurers run, the pass returns the volume-server
ensurer's error, and no filer, S3-gateway or ingress ensurer is invoked. -/
theorem Reconcile_short_circuit_witness :
    findSeaweedCustomResourceInstance volumeStopsReconciler
        { Namespace := "default", Name := "seaweed" } []
      = ((some gatewayRecord, false, {}, none), []) ∧
    (Reconcile volumeStopsReconciler { Namespace := "default", Name := "seaweed" } []).store
      = [Step.ensureMaster, Step.ensureVolumeServers] ∧
    (Reconcile volumeStopsReconciler { Namespace := "default", Name := "seaweed" } []).err
      = some (Err.other "volume servers not ready") ∧
    ∀ y ∈ (Reconcile volumeStopsReconciler
        { Namespace := "default", Name := "seaweed" } []).invoked,
      y.step ≠ Step.ensureFilerServers ∧ y.step ≠ Step.ensureS3Gateway ∧
      y.step ≠ Step.ensureSeaweedIngress :=
  ⟨rfl, rfl, rfl,
    (Reconcile_short_circuit volumeStopsReconciler { Namespace := "default", Name := "seaweed" }
      [] [] gatewayRecord {} none rfl).2.2.2.2.2
      (Invocation.mk Step.ensureVolumeServers true {}
        (some (Err.other "volume servers not ready")))
      (by decide) rfl rfl⟩
/-- C5, evaluated where it fails: the live gateway deployment records the desired pod spec
as its last-applied pod template, and its replicas, labels, annotations and strategy agree
with the desired deployment; only its pod spec carries the defaults of the API server.
`DeploymentPodSpecChanged` still answers true, the merge overwrites the live pod spec with
the desired one, and `CreateOrUpdateDeployment` issues a store `Update`. -/
theorem CreateOrUpdateDeployment_overwrites_converged :
    GetDeploymentLastAppliedPodTemplate podJSON liveDeployment = Except.ok gatewayPodSpec ∧
    desiredDeployment.Spec.Template.Spec = gatewayPodSpec ∧
    liveDeployment.Spec.Template.Spec = defaultedPodSpec ∧
    DeploymentPodSpecChanged podJSON desiredDeployment liveDeployment = true ∧
    (CreateOrUpdateDeployment podJSON (memClient Deployment) desiredDeployment
        [liveDeployment]).err = none ∧
    (CreateOrUpdateDeployment podJSON (memClient Deployment) desiredDeployment
        [liveDeployment]).calls.map Call.isUpdate = [false, false, true] ∧
    (CreateOrUpdateDeployment podJSON (memClient Deployment) desiredDeployment
        [liveDeployment]).obj.map (fun d => d.Spec.Template.Spec) = some gatewayPodSpec := by
  refine ⟨by rfl, by rfl, by rfl, by rfl, by rfl, by rfl, by rfl⟩
/-- C6. Persist if and only if changed: when `Create` fails with already-exists and the
fetch and the merge succeed, `CreateOrUpdate` issues, after the failed `Create` and the
`Get`, exactly one `Update`, of the merged copy, when that copy is not semantically equal to
the fetched object, and returns the merged copy as `Update` left it together with the error
of `Update`; when the merged copy is semantically equal to the fetched object it issues no
further call, leaves the store as `Get` left it and returns the merged copy. -/
theorem CreateOrUpdate_persists_iff_changed {σ α : Type} [RuntimeObject α] (r : Client σ α)
    (obj : α) (mergeFn : MergeFn α) (s s1 s2 : σ) (desired existing0 existing mutated : α)
    (err : Option Err) (key : ObjectKey)
    (hcreate : r.Create obj s = (desired, err, s1))
    (hexists : IsAlreadyExists err = true)
    (hclone : EmptyClone obj = Except.ok existing0)
    (hkey : ObjectKeyFromObject existing0 = Except.ok key)
    (hget : r.Get key existing0 s1 = (existing, none, s2))
    (hmerge : mergeFn existing desired = Except.ok mutated) :
    (DeepEqual (RuntimeObject.toValue existing) (RuntimeObject.toValue mutated) = false →
      CreateOrUpdate r obj mergeFn s =
        ⟨some (r.Update mutated s2).1, (r.Update mutated s2).2.1, (r.Update mutated s2).2.2,
          [Call.Create obj, Call.Get key, Call.Update mutated]⟩) ∧
    (DeepEqual (RuntimeObject.toValue existing) (RuntimeObject.toValue mutated) = true →
      CreateOrUpdate r obj mergeFn s =
        ⟨some mutated, none, s2, [Call.Create obj, Call.Get key]⟩) := by
  constructor
  · intro hne
    simp [CreateOrUpdate, hcreate, hexists, hclone, hkey, hget, hmerge, hne]
  · intro heq
    simp [CreateOrUpdate, hcreate, hexists, hclone, hkey, hget, hmerge, heq]

/-- C6 at a stored config map and a desired one with other data: the merged copy differs,
one `Update` of it is issued and it is returned; a second call finds nothing to change. -/
theorem CreateOrUpdate_persists_iff_changed_witness :
    (DeepEqual (GoValue.ConfigMapPtr liveConfigMap) (GoValue.ConfigMapPtr mergedConfigMap)
        = false →
      CreateOrUpdate (memClient ConfigMap) desiredConfigMap mergeConfigMap [liveConfigMap] =
        ⟨some mergedConfigMap, none, [mergedConfigMap, liveConfigMap],
          [Call.Create desiredConfigMap,
            Call.Get { Namespace := "default", Name := "seaweed-filer" },
            Call.Update mergedConfigMap]⟩) ∧
    DeepEqual (GoValue.ConfigMapPtr liveConfigMap) (GoValue.ConfigMapPtr mergedConfigMap)
        = false ∧
    (CreateOrUpdate (memClient ConfigMap) desiredConfigMap mergeConfigMap
        [mergedConfigMap, liveConfigMap]).calls =
      [Call.Create desiredConfigMap,
        Call.Get { Namespace := "default", Name := "seaweed-filer" }] :=
  ⟨(CreateOrUpdate_persists_iff_changed (memClient ConfigMap) desiredConfigMap mergeConfigMap
      [liveConfigMap] [liveConfigMap] [liveConfigMap] desiredConfigMap
      { Name := "seaweed-filer", Namespace := "default" } liveConfigMap mergedConfigMap
      (some (Err.status StatusReason.AlreadyExists "already exists"))
      { Namespace := "default", Name := "seaweed-filer" }
      (by rfl) (by rfl) (by rfl) (by rfl) (by rfl) (by rfl)).1,
    by decide, by decide⟩
/-- C7 as stated fails for the service strategy: on a live service whose
last-applied-configuration annotation does not decode, the merge returns the decode error,
and `CreateOrUpdateService` returns it after `Create` and `Get`, with no object and no
`Update`. -/
theorem mergeService_malformed_snapshot_fatal :
    corruptSnapshotService.Annotations.get LastAppliedConfigAnnotation = some "not json" ∧
    serviceJSON.Unmarshal "not json" = Except.error (Err.other "invalid character") ∧
    mergeService serviceJSON corruptSnapshotService desiredNodePortService
      = Except.error (Err.other "invalid character") ∧
    (CreateOrUpdateService serviceJSON (memClient Service) desiredNodePortService
        [corruptSnapshotService]).err = some (Err.other "invalid character") ∧
    (CreateOrUpdateService serviceJSON (memClient Service) desiredNodePortService
        [corruptSnapshotService]).obj = none ∧
    (CreateOrUpdateService serviceJSON (memClient Service) desiredNodePortService
        [corruptSnapshotService]).calls.map Call.isUpdate = [false, false] := by
  refine ⟨by rfl, by rfl, by rfl, by rfl, by rfl, by rfl⟩

/-- C7, amended. A snapshot that does not decode is not fatal for the deployment
strategy: when the live deployment's pod-template snapshot annotation is present but does
not decode, the desired pod spec can be encoded and the copy of the template annotations
does not write to a nil map, the oracle `DeploymentPodSpecChanged` answers that the pod
spec changed, the merge succeeds, the merged pod spec is the desired one and the encoding
of the desired pod spec is recorded under the last-applied-configuration key; when the
desired deployment is the one `CreateOrUpdateDeployment` stamps with `addSpecToAnnotation`,
the undecodable pod-template snapshot is replaced by the encoding of the desired pod spec
as well. For the service and the ingress strategies it is fatal: when the snapshot they
read (desired's own annotation, else the live one) does not decode, the merge returns the
decode error. -/
theorem malformed_snapshot_handling :
    (∀ (J : JSON PodSpec) (existing desired : Deployment) (applied b : String) (err : Err),
      existing.Annotations.get LastAppliedPodTemplate = some applied →
      J.Unmarshal applied = Except.error err →
      J.Marshal desired.Spec.Template.Spec = Except.ok b →
      (existing.Spec.Template.Annotations.isNil = false ∨
        desired.Spec.Template.Annotations.entries = []) →
      GetDeploymentLastAppliedPodTemplate J existing = Except.error err ∧
      DeploymentPodSpecChanged J desired existing = true ∧
      ∃ merged, mergeDeployment J existing desired = Except.ok merged ∧
        merged.Spec.Template.Spec = desired.Spec.Template.Spec ∧
        merged.Annotations.get LastAppliedConfigAnnotation = some b) ∧
    (∀ (J : JSON PodSpec) (existing deploy : Deployment) (applied b : String) (err : Err),
      existing.Annotations.get LastAppliedPodTemplate = some applied →
      J.Unmarshal applied = Except.error err →
      J.Marshal deploy.Spec.Template.Spec = Except.ok b →
      (existing.Spec.Template.Annotations.isNil = false ∨
        deploy.Spec.Template.Annotations.entries = []) →
      GetDeploymentLastAppliedPodTemplate J existing = Except.error err ∧
      ∃ stamped merged, addSpecToAnnotation J deploy = Except.ok stamped ∧
        mergeDeployment J existing stamped = Except.ok merged ∧
        merged.Spec.Template.Spec = deploy.Spec.Template.Spec ∧
        merged.Annotations.get LastAppliedPodTemplate = some b ∧
        merged.Annotations.get LastAppliedConfigAnnotation = some b) ∧
    (∀ (J : JSON ServiceSpec) (existing desired : Service) (applied : String) (err : Err),
      (desired.Annotations.get LastAppliedConfigAnnotation).orElse
        (fun _ => existing.Annotations.get LastAppliedConfigAnnotation) = some applied →
      J.Unmarshal applied = Except.error err →
      mergeService J existing desired = Except.error err) ∧
    (∀ (J : JSON IngressSpec) (existing desired : Ingress) (applied : String) (err : Err),
      (desired.Annotations.get LastAppliedConfigAnnotation).orElse
        (fun _ => existing.Annotations.get LastAppliedConfigAnnotation) = some applied →
      J.Unmarshal applied = Except.error err →
      mergeIngress J existing desired = Except.error err) := by
  refine ⟨?_, ?_, ?_, ?_⟩
  · intro J existing desired applied b err happlied hdec hb htpl
    have hget : GetDeploymentLastAppliedPodTemplate J existing = Except.error err := by
      unfold GetDeploymentLastAppliedPodTemplate
      simp only [happlied, hdec]
    have hchanged : DeploymentPodSpecChanged J desired existing = true := by
      unfold DeploymentPodSpecChanged
      rw [hget]
    obtain ⟨merged, hm, hspec, hann⟩ := mergeDeployment_of_marshal J existing desired b hb htpl
    refine ⟨hget, hchanged, merged, hm, hspec, ?_⟩
    rw [hann]
    simp [GoMap.get_mk_setEntry]
  · intro J existing deploy applied b err happlied hdec hb htpl
    have hget : GetDeploymentLastAppliedPodTemplate J existing = Except.error err := by
      unfold GetDeploymentLastAppliedPodTemplate
      simp only [happlied, hdec]
    have hstamp := addSpecToAnnotation_of_marshal J deploy b hb
    obtain ⟨merged, hm, hspec, hann⟩ := mergeDeployment_of_marshal J existing
      { deploy with
        Annotations := GoMap.mk (setEntry LastAppliedPodTemplate b deploy.Annotations.entries) }
      b hb htpl
    refine ⟨hget, _, merged, hstamp, hm, hspec, ?_, ?_⟩
    · rw [hann, GoMap.get_mk_setEntry, if_neg (by decide)]
      apply GoMap.get_merged_of_some
      simp [GoMap.get_mk_setEntry]
    · rw [hann]
      simp [GoMap.get_mk_setEntry]
  · intro J existing desired applied err happlied hdec
    unfold mergeService
    simp only [GoMap.rangeAssign_orEmpty]
    have h : ServiceEqual J desired
        { existing with
          Annotations := GoMap.mk (desired.Annotations.entries.foldr
            (fun kv acc => setEntry kv.1 kv.2 acc) existing.Annotations.entries),
          Labels := desired.Labels } = Except.error err := by
      unfold ServiceEqual
      simp only [GoMap.get_mk_foldr, happlied, hdec]
    rw [h]
  · intro J existing desired applied err happlied hdec
    unfold mergeIngress
    simp only [GoMap.rangeAssign_orEmpty]
    have h : IngressEqual J desired
        { existing with
          Annotations := GoMap.mk (desired.Annotations.entries.foldr
            (fun kv acc => setEntry kv.1 kv.2 acc) existing.Annotations.entries),
          Labels := desired.Labels } = Except.error err := by
      unfold IngressEqual
      simp only [GoMap.get_mk_foldr, happlied, hdec]
    rw [h]

/-- C7, amended, at a live deployment whose pod-template snapshot is not valid JSON:
`CreateOrUpdateDeployment` succeeds and issues one `Update`; the merge of the stamped
desired deployment takes the desired pod spec and records its encoding under both snapshot
keys. -/
theorem malformed_snapshot_handling_witness :
    corruptSnapshotDeployment.Annotations.get LastAppliedPodTemplate = some "not json" ∧
    podJSON.Unmarshal "not json" = Except.error (Err.other "invalid character") ∧
    (CreateOrUpdateDeployment podJSON (memClient Deployment) desiredDeployment
        [corruptSnapshotDeployment]).err = none ∧
    (CreateOrUpdateDeployment podJSON (memClient Deployment) desiredDeployment
        [corruptSnapshotDeployment]).calls.map Call.isUpdate = [false, false, true] ∧
    addSpecToAnnotation podJSON desiredDeployment = Except.ok stampedDeployment ∧
    GetDeploymentLastAppliedPodTemplate podJSON corruptSnapshotDeployment
      = Except.error (Err.other "invalid character") ∧
    ∃ stamped merged, addSpecToAnnotation podJSON desiredDeployment = Except.ok stamped ∧
      mergeDeployment podJSON corruptSnapshotDeployment stamped = Except.ok merged ∧
      merged.Spec.Template.Spec = desiredDeployment.Spec.Template.Spec ∧
      merged.Annotations.get LastAppliedPodTemplate = some "PodSpec  " ∧
      merged.Annotations.get LastAppliedConfigAnnotation = some "PodSpec  " :=
  ⟨by rfl, by rfl, by rfl, by rfl, by rfl,
    malformed_snapshot_handling.2.1 podJSON corruptSnapshotDeployment desiredDeployment
      "not json" "PodSpec  " (Err.other "invalid character") (by rfl) (by rfl) (by rfl)
      (Or.inr (by rfl))⟩
/-- C8. Equality oracle definition: `ServiceEqual` and `IngressEqual` return true exactly
when the old object carries the last-applied-configuration annotation, the annotation
decodes, and the decoded spec is semantically equal to the new object's spec; they return
false with no error when the old object carries no such annotation; and the answer is the
same for any two old objects with the same annotation and any two new objects with the same
spec. -/
theorem ServiceEqual_IngressEqual_spec :
    (∀ (J : JSON ServiceSpec) (newSvc oldSvc : Service),
      (ServiceEqual J newSvc oldSvc = Except.ok true ↔
        ∃ applied oldSpec, oldSvc.Annotations.get LastAppliedConfigAnnotation = some applied ∧
          J.Unmarshal applied = Except.ok oldSpec ∧
          DeepEqual (GoValue.ServiceSpec oldSpec) (GoValue.ServiceSpec newSvc.Spec) = true) ∧
      (oldSvc.Annotations.get LastAppliedConfigAnnotation = none →
        ServiceEqual J newSvc oldSvc = Except.ok false) ∧
      (∀ newSvc' oldSvc' : Service,
        oldSvc'.Annotations.get LastAppliedConfigAnnotation
          = oldSvc.Annotations.get LastAppliedConfigAnnotation →
        newSvc'.Spec = newSvc.Spec →
        ServiceEqual J newSvc' oldSvc' = ServiceEqual J newSvc oldSvc)) ∧
    (∀ (J : JSON IngressSpec) (newIngress oldIngress : Ingress),
      (IngressEqual J newIngress oldIngress = Except.ok true ↔
        ∃ applied oldSpec,
          oldIngress.Annotations.get LastAppliedConfigAnnotation = some applied ∧
          J.Unmarshal applied = Except.ok oldSpec ∧
          DeepEqual (GoValue.IngressSpec oldSpec) (GoValue.IngressSpec newIngress.Spec)
            = true) ∧
      (oldIngress.Annotations.get LastAppliedConfigAnnotation = none →
        IngressEqual J newIngress oldIngress = Except.ok false) ∧
      (∀ newIngress' oldIngress' : Ingress,
        oldIngress'.Annotations.get LastAppliedConfigAnnotation
          = oldIngress.Annotations.get LastAppliedConfigAnnotation →
        newIngress'.Spec = newIngress.Spec →
        IngressEqual J newIngress' oldIngress' = IngressEqual J newIngress oldIngress)) := by
  constructor
  · intro J newSvc oldSvc
    refine ⟨?_, ?_, ?_⟩
    · unfold ServiceEqual
      constructor
      · intro h
        split at h
        · rename_i applied happlied
          split at h
          · cases h
          · rename_i oldSpec hdec
            injection h with h
            exact ⟨applied, oldSpec, happlied, hdec, h⟩
        · cases h
      · rintro ⟨applied, oldSpec, happlied, hdec, heq⟩
        simp [happlied, hdec, heq]
    · intro h
      simp [ServiceEqual, h]
    · intro newSvc' oldSvc' hann hspec
      simp [ServiceEqual, hann, hspec]
  · intro J newIngress oldIngress
    refine ⟨?_, ?_, ?_⟩
    · unfold IngressEqual
      constructor
      · intro h
        split at h
        · rename_i applied happlied
          split at h
          · cases h
          · rename_i oldSpec hdec
            injection h with h
            exact ⟨applied, oldSpec, happlied, hdec, h⟩
        · cases h
      · rintro ⟨applied, oldSpec, happlied, hdec, heq⟩
        simp [happlied, hdec, heq]
    · intro h
      simp [IngressEqual, h]
    · intro newIngress' oldIngress' hann hspec
      simp [IngressEqual, hann, hspec]

/-- C8 at two live services with the same snapshot annotation and different live specs:
the oracle gives the same answer on both, and a service with no annotation is not
converged. -/
theorem ServiceEqual_IngressEqual_spec_witness :
    corruptSnapshotService.Spec ≠ ({ corruptSnapshotService with Spec := {} } : Service).Spec ∧
    ServiceEqual serviceJSON desiredNodePortService
        { corruptSnapshotService with Spec := {} }
      = ServiceEqual serviceJSON desiredNodePortService corruptSnapshotService ∧
    ServiceEqual serviceJSON desiredNodePortService desiredNodePortService
      = Except.ok false :=
  ⟨by decide,
    (ServiceEqual_IngressEqual_spec.1 serviceJSON desiredNodePortService
      corruptSnapshotService).2.2 desiredNodePortService
      { corruptSnapshotService with Spec := {} } (by rfl) (by rfl),
    (ServiceEqual_IngressEqual_spec.1 serviceJSON desiredNodePortService
      desiredNodePortService).2.1 (by rfl)⟩
/-- C9. Error pass-through without further store calls: an error of `Create` other than
already-exists is returned as it is after that single call; when `Create` fails with
already-exists and `Get` fails, the `Get` error is returned and no `Update` is issued; when
the merge function fails, its error is returned and no `Update` is issued; when `Update`
fails, its error is returned; and in every call each of `Create`, `Get` and `Update` is
attempted at most once. -/
theorem CreateOrUpdate_error_passthrough {σ α : Type} [RuntimeObject α] (r : Client σ α)
    (obj : α) (mergeFn : MergeFn α) (s : σ) :
    (∀ e, (r.Create obj s).2.1 = some e → IsAlreadyExists (some e) = false →
      (CreateOrUpdate r obj mergeFn s).err = some e ∧
      (CreateOrUpdate r obj mergeFn s).calls = [Call.Create obj]) ∧
    (∀ existing0 key e, IsAlreadyExists (r.Create obj s).2.1 = true →
      EmptyClone obj = Except.ok existing0 → ObjectKeyFromObject existing0 = Except.ok key →
      (r.Get key existing0 (r.Create obj s).2.2).2.1 = some e →
      (CreateOrUpdate r obj mergeFn s).err = some e ∧
      (CreateOrUpdate r obj mergeFn s).obj = none ∧
      (CreateOrUpdate r obj mergeFn s).calls = [Call.Create obj, Call.Get key]) ∧
    (∀ existing0 key e, IsAlreadyExists (r.Create obj s).2.1 = true →
      EmptyClone obj = Except.ok existing0 → ObjectKeyFromObject existing0 = Except.ok key →
      (r.Get key existing0 (r.Create obj s).2.2).2.1 = none →
      mergeFn (r.Get key existing0 (r.Create obj s).2.2).1 (r.Create obj s).1 = Except.error e →
      (CreateOrUpdate r obj mergeFn s).err = some e ∧
      (CreateOrUpdate r obj mergeFn s).obj = none ∧
      (CreateOrUpdate r obj mergeFn s).calls = [Call.Create obj, Call.Get key]) ∧
    (∀ existing0 key mutated e, IsAlreadyExists (r.Create obj s).2.1 = true →
      EmptyClone obj = Except.ok existing0 → ObjectKeyFromObject existing0 = Except.ok key →
      (r.Get key existing0 (r.Create obj s).2.2).2.1 = none →
      mergeFn (r.Get key existing0 (r.Create obj s).2.2).1 (r.Create obj s).1
        = Except.ok mutated →
      DeepEqual (RuntimeObject.toValue (r.Get key existing0 (r.Create obj s).2.2).1)
        (RuntimeObject.toValue mutated) = false →
      (r.Update mutated (r.Get key existing0 (r.Create obj s).2.2).2.2).2.1 = some e →
      (CreateOrUpdate r obj mergeFn s).err = some e ∧
      (CreateOrUpdate r obj mergeFn s).calls =
        [Call.Create obj, Call.Get key, Call.Update mutated]) ∧
    ((CreateOrUpdate r obj mergeFn s).calls.filter Call.isCreate).length ≤ 1 ∧
    ((CreateOrUpdate r obj mergeFn s).calls.filter Call.isGet).length ≤ 1 ∧
    ((CreateOrUpdate r obj mergeFn s).calls.filter Call.isUpdate).length ≤ 1 := by
  rcases hc : r.Create obj s with ⟨desired, err, s1⟩
  refine ⟨?_, ?_, ?_, ?_, ?_⟩
  · intro e he hne
    simp only at he
    subst he
    simp [CreateOrUpdate, hc, hne]
  · intro existing0 key e hex hclone hkey hget
    simp only at hex hget
    rcases hg : r.Get key existing0 s1 with ⟨existing, gerr, s2⟩
    rw [hg] at hget
    simp only at hget
    subst hget
    simp [CreateOrUpdate, hc, hex, hclone, hkey, hg]
  · intro existing0 key e hex hclone hkey hget hmerge
    simp only at hex hget hmerge
    rcases hg : r.Get key existing0 s1 with ⟨existing, gerr, s2⟩
    rw [hg] at hget hmerge
    simp only at hget hmerge
    subst hget
    simp [CreateOrUpdate, hc, hex, hclone, hkey, hg, hmerge]
  · intro existing0 key mutated e hex hclone hkey hget hmerge hne hupd
    simp only at hex hget hmerge hne hupd
    rcases hg : r.Get key existing0 s1 with ⟨existing, gerr, s2⟩
    rw [hg] at hget hmerge hne hupd
    simp only at hget hmerge hne hupd
    subst hget
    rcases hu : r.Update mutated s2 with ⟨updated, uerr, s3⟩
    rw [hu] at hupd
    simp only at hupd
    subst hupd
    simp [CreateOrUpdate, hc, hex, hclone, hkey, hg, hmerge, hne, hu]
  · unfold CreateOrUpdate
    rw [hc]
    simp only
    repeat' split
    all_goals simp [Call.isCreate, Call.isGet, Call.isUpdate]

/-- C9 at a client that refuses every call with a conflict: the call returns that error
after the single `Create`. -/
theorem CreateOrUpdate_error_passthrough_witness :
    (CreateOrUpdate (failingClient ConfigMap (Err.status StatusReason.Conflict "conflict"))
        desiredConfigMap mergeConfigMap ()).err
      = some (Err.status StatusReason.Conflict "conflict") ∧
    (CreateOrUpdate (failingClient ConfigMap (Err.status StatusReason.Conflict "conflict"))
        desiredConfigMap mergeConfigMap ()).calls = [Call.Create desiredConfigMap] :=
  (CreateOrUpdate_error_passthrough
    (failingClient ConfigMap (Err.status StatusReason.Conflict "conflict"))
    desiredConfigMap mergeConfigMap ()).1 (Err.status StatusReason.Conflict "conflict")
    (by rfl) (by rfl)
/-- C10. Annotation merge: for each of the five merge strategies, whenever the merge
succeeds, and for every annotation key other than the two snapshot keys: a key of
desired's annotations has desired's value in the merged object, and a key that desired
does not carry is in the merged object exactly when the live object has it, with the live
value; and the desired deployment that `CreateOrUpdateDeployment` hands to its strategy has,
at such a key, the annotation of the deployment it was called with. -/
theorem merge_annotations_key_by_key (k : String) (hpod : k ≠ LastAppliedPodTemplate)
    (hconf : k ≠ LastAppliedConfigAnnotation) :
    (∀ (J : JSON PodSpec) (existing desired merged : Deployment),
      mergeDeployment J existing desired = Except.ok merged →
      (∀ v, desired.Annotations.get k = some v → merged.Annotations.get k = some v) ∧
      (desired.Annotations.get k = none →
        merged.Annotations.get k = existing.Annotations.get k)) ∧
    (∀ (J : JSON ServiceSpec) (existing desired merged : Service),
      mergeService J existing desired = Except.ok merged →
      (∀ v, desired.Annotations.get k = some v → merged.Annotations.get k = some v) ∧
      (desired.Annotations.get k = none →
        merged.Annotations.get k = existing.Annotations.get k)) ∧
    (∀ (J : JSON IngressSpec) (existing desired merged : Ingress),
      mergeIngress J existing desired = Except.ok merged →
      (∀ v, desired.Annotations.get k = some v → merged.Annotations.get k = some v) ∧
      (desired.Annotations.get k = none →
        merged.Annotations.get k = existing.Annotations.get k)) ∧
    (∀ (existing desired merged : ConfigMap),
      mergeConfigMap existing desired = Except.ok merged →
      (∀ v, desired.Annotations.get k = some v → merged.Annotations.get k = some v) ∧
      (desired.Annotations.get k = none →
        merged.Annotations.get k = existing.Annotations.get k)) ∧
    (∀ (existing desired merged : Secret),
      mergeSecret existing desired = Except.ok merged →
      (∀ v, desired.Annotations.get k = some v → merged.Annotations.get k = some v) ∧
      (desired.Annotations.get k = none →
        merged.Annotations.get k = existing.Annotations.get k)) ∧
    (∀ (J : JSON PodSpec) (deploy desired : Deployment),
      addSpecToAnnotation J deploy = Except.ok desired →
      desired.Annotations.get k = deploy.Annotations.get k) := by
  have hconf' : ¬ LastAppliedConfigAnnotation = k := fun e => hconf e.symm
  have hpod' : ¬ LastAppliedPodTemplate = k := fun e => hpod e.symm
  refine ⟨?_, ?_, ?_, ?_, ?_, ?_⟩
  · intro J existing desired merged h
    unfold mergeDeployment at h
    simp only [GoMap.rangeAssign_orEmpty, GoMap.set_mk] at h
    repeat' split at h
    all_goals cases h
    all_goals
      constructor
      · intro v hv
        simp only [GoMap.get_mk_setEntry, if_neg hconf']
        exact GoMap.get_merged_of_some _ _ k v hv
      · intro hv
        simp only [GoMap.get_mk_setEntry, if_neg hconf']
        exact GoMap.get_merged_of_none _ _ k hv
  · intro J existing desired merged h
    unfold mergeService at h
    simp only [GoMap.rangeAssign_orEmpty, GoMap.set_mk] at h
    repeat' split at h
    all_goals cases h
    all_goals
      constructor
      · intro v hv
        simp only [GoMap.get_mk_setEntry, if_neg hconf']
        exact GoMap.get_merged_of_some _ _ k v hv
      · intro hv
        simp only [GoMap.get_mk_setEntry, if_neg hconf']
        exact GoMap.get_merged_of_none _ _ k hv
  · intro J existing desired merged h
    unfold mergeIngress at h
    simp only [GoMap.rangeAssign_orEmpty, GoMap.set_mk] at h
    repeat' split at h
    all_goals cases h
    all_goals
      constructor
      · intro v hv
        simp only [GoMap.get_mk_setEntry, if_neg hconf']
        exact GoMap.get_merged_of_some _ _ k v hv
      · intro hv
        simp only [GoMap.get_mk_setEntry, if_neg hconf']
        exact GoMap.get_merged_of_none _ _ k hv
  · intro existing desired merged h
    unfold mergeConfigMap at h
    simp only [GoMap.rangeAssign_orEmpty] at h
    cases h
    exact ⟨fun v hv => GoMap.get_merged_of_some _ _ k v hv,
      fun hv => GoMap.get_merged_of_none _ _ k hv⟩
  · intro existing desired merged h
    unfold mergeSecret at h
    simp only [GoMap.rangeAssign_orEmpty] at h
    cases h
    exact ⟨fun v hv => GoMap.get_merged_of_some _ _ k v hv,
      fun hv => GoMap.get_merged_of_none _ _ k hv⟩
  · intro J deploy desired h
    unfold addSpecToAnnotation at h
    simp only [GoMap.orEmpty_set] at h
    split at h
    · cases h
    · cases h
      simp only [GoMap.get_mk_setEntry, if_neg hpod']
      rfl

/-- C10 at the live and desired config maps: the key that only the live object carries
keeps the live value in the merged object. -/
theorem merge_annotations_key_by_key_witness :
    mergeConfigMap liveConfigMap desiredConfigMap = Except.ok mergedConfigMap ∧
    desiredConfigMap.Annotations.get "example.com/owner" = none ∧
    mergedConfigMap.Annotations.get "example.com/owner" = some "ops" :=
  ⟨by rfl, by rfl,
    ((merge_annotations_key_by_key "example.com/owner" (by decide) (by decide)).2.2.2.1
      liveConfigMap desiredConfigMap mergedConfigMap (by rfl)).2 (by rfl)⟩
/-- C11. Operator-owned fields are overwritten unconditionally: whenever the merge
succeeds, whatever the snapshot says, the deployment strategy yields `Spec.Replicas` and
`Labels` equal to desired's; the config-map and the secret strategies yield `Labels` and
`Data` equal to desired's, so that a key desired does not carry is not in the merged data;
the service and the ingress strategies yield `Labels` equal to desired's. -/
theorem merge_overwrites_owned_fields :
    (∀ (J : JSON PodSpec) (existing desired merged : Deployment),
      mergeDeployment J existing desired = Except.ok merged →
      merged.Spec.Replicas = desired.Spec.Replicas ∧ merged.Labels = desired.Labels) ∧
    (∀ (existing desired merged : ConfigMap),
      mergeConfigMap existing desired = Except.ok merged →
      merged.Labels = desired.Labels ∧ merged.Data = desired.Data ∧
      ∀ k, desired.Data.get k = none → merged.Data.get k = none) ∧
    (∀ (existing desired merged : Secret),
      mergeSecret existing desired = Except.ok merged →
      merged.Labels = desired.Labels ∧ merged.Data = desired.Data ∧
      ∀ k, desired.Data.get k = none → merged.Data.get k = none) ∧
    (∀ (J : JSON ServiceSpec) (existing desired merged : Service),
      mergeService J existing desired = Except.ok merged →
      merged.Labels = desired.Labels) ∧
    (∀ (J : JSON IngressSpec) (existing desired merged : Ingress),
      mergeIngress J existing desired = Except.ok merged →
      merged.Labels = desired.Labels) := by
  refine ⟨?_, ?_, ?_, ?_, ?_⟩
  · intro J existing desired merged h
    unfold mergeDeployment at h
    simp only [GoMap.rangeAssign_orEmpty, GoMap.set_mk] at h
    repeat' split at h
    all_goals cases h
    all_goals exact ⟨rfl, rfl⟩
  · intro existing desired merged h
    rw [mergeConfigMap_eq] at h
    cases h
    exact ⟨rfl, rfl, fun k hk => hk⟩
  · intro existing desired merged h
    rw [mergeSecret_eq] at h
    cases h
    exact ⟨rfl, rfl, fun k hk => hk⟩
  · intro J existing desired merged h
    unfold mergeService at h
    simp only [GoMap.rangeAssign_orEmpty, GoMap.set_mk] at h
    repeat' split at h
    all_goals cases h
    all_goals rfl
  · intro J existing desired merged h
    unfold mergeIngress at h
    simp only [GoMap.rangeAssign_orEmpty, GoMap.set_mk] at h
    repeat' split at h
    all_goals cases h
    all_goals rfl

/-- C11 at the live and desired config maps: the merged labels and data are desired's, and
the live key `stale` is gone. -/
theorem merge_overwrites_owned_fields_witness :
    liveConfigMap.Data.get "stale" = some "x" ∧
    desiredConfigMap.Data.get "stale" = none ∧
    mergedConfigMap.Labels = desiredConfigMap.Labels ∧
    mergedConfigMap.Data = desiredConfigMap.Data ∧
    mergedConfigMap.Data.get "stale" = none :=
  ⟨by rfl, by rfl,
    (merge_overwrites_owned_fields.2.1 liveConfigMap desiredConfigMap mergedConfigMap
      (by rfl)).1,
    (merge_overwrites_owned_fields.2.1 liveConfigMap desiredConfigMap mergedConfigMap
      (by rfl)).2.1,
    (merge_overwrites_owned_fields.2.1 liveConfigMap desiredConfigMap mergedConfigMap
      (by rfl)).2.2 "stale" (by rfl)⟩
/-- C12 as stated fails when the oracle reports convergence: the live service records the
desired spec as its snapshot while its live port list differs from desired's; the merge
succeeds, the labels are desired's, and the merged port list is the live one, which differs
from desired's in more than node ports. -/
theorem mergeService_keeps_drifted_ports :
    ∃ merged, mergeService serviceJSON driftedService desiredNodePortService
        = Except.ok merged ∧
      merged.Labels = desiredNodePortService.Labels ∧
      merged.Spec.Ports = driftedService.Spec.Ports ∧
      merged.Spec.Ports.map withoutNodePort
        ≠ desiredNodePortService.Spec.Ports.map withoutNodePort :=
  ⟨_, by rfl, by rfl, by rfl, by decide⟩

/-- C12, amended. Whenever the service merge strategy succeeds, the merged labels are
desired's. When the strategy finds the live service not converged, the merged port list is
desired's port list, the same entries in the same order, apart from node-port values
carried over from the live object: when the live type and the desired type are both
NodePort or LoadBalancer, each desired port takes the `NodePort` of the first live port
with its `Port` and `Protocol`, and keeps its own when there is none; otherwise the merged
port list is exactly desired's. When the strategy finds the live service converged, the
live spec, its port list included, is left as it is. -/
theorem mergeService_labels_and_ports (J : JSON ServiceSpec)
    (existingSvc desiredSvc merged : Service) (annotations : GoMap String)
    (hann : desiredSvc.Annotations.rangeAssign existingSvc.Annotations.orEmpty
      = Except.ok annotations)
    (hm : mergeService J existingSvc desiredSvc = Except.ok merged) :
    merged.Labels = desiredSvc.Labels ∧
    (ServiceEqual J desiredSvc
        { existingSvc with Annotations := annotations, Labels := desiredSvc.Labels }
        = Except.ok false →
      merged.Spec.Ports.length = desiredSvc.Spec.Ports.length ∧
      merged.Spec.Ports.map withoutNodePort = desiredSvc.Spec.Ports.map withoutNodePort ∧
      ((existingSvc.Spec.Type_ = ServiceTypeNodePort ∨
            existingSvc.Spec.Type_ = ServiceTypeLoadBalancer) ∧
          (desiredSvc.Spec.Type_ = ServiceTypeNodePort ∨
            desiredSvc.Spec.Type_ = ServiceTypeLoadBalancer) →
        merged.Spec.Ports = desiredSvc.Spec.Ports.map (fun p =>
          match existingSvc.Spec.Ports.find?
              (fun q => decide (q.Port = p.Port ∧ q.Protocol = p.Protocol)) with
          | some q => { p with NodePort := q.NodePort }
          | none => p)) ∧
      (¬ ((existingSvc.Spec.Type_ = ServiceTypeNodePort ∨
            existingSvc.Spec.Type_ = ServiceTypeLoadBalancer) ∧
          (desiredSvc.Spec.Type_ = ServiceTypeNodePort ∨
            desiredSvc.Spec.Type_ = ServiceTypeLoadBalancer)) →
        merged.Spec.Ports = desiredSvc.Spec.Ports)) ∧
    (ServiceEqual J desiredSvc
        { existingSvc with Annotations := annotations, Labels := desiredSvc.Labels }
        = Except.ok true →
      merged.Spec = existingSvc.Spec) := by
  rw [GoMap.rangeAssign_orEmpty] at hann
  cases hann
  unfold mergeService at hm
  simp only [GoMap.rangeAssign_orEmpty, GoMap.set_mk] at hm
  split at hm
  · cases hm
  · rename_i equal hequal
    rw [hequal]
    cases equal with
    | true =>
      simp only [Bool.not_true, Bool.false_eq_true, reduceIte] at hm
      cases hm
      refine ⟨rfl, ?_, fun _ => rfl⟩
      intro h
      cases h
    | false =>
      simp only [Bool.not_false, reduceIte] at hm
      split at hm
      · cases hm
      · split at hm
        · rename_i htypes
          cases hm
          refine ⟨rfl, fun _ => ⟨?_, ?_, fun _ => ?_, fun hnot => absurd htypes hnot⟩, ?_⟩
          · simp [keepNodePorts_eq_map]
          · exact map_withoutNodePort_keepNodePorts _ _
          · simp only [keepNodePorts_eq_map]
            apply List.map_congr_left
            intro p _
            exact carryNodePort_eq_find p existingSvc.Spec.Ports
          · intro h
            cases h
        · rename_i htypes
          cases hm
          refine ⟨rfl, fun _ => ⟨rfl, rfl, fun hboth => absurd hboth htypes, fun _ => rfl⟩, ?_⟩
          intro h
          cases h

/-- C12, amended, at two not converged live services. With the live and the desired
NodePort services the merged ports are the desired ones with the node ports of the live
ports, `30443`, `30080` and none; with a live ClusterIP service and a desired NodePort
service the merged port is desired's, with desired's own node port `31000`. -/
theorem mergeService_labels_and_ports_witness :
    (∃ merged, mergeService serviceJSON liveNodePortService desiredNodePortService
        = Except.ok merged ∧
      merged.Labels = GoMap.mk [("app", "seaweedfs")] ∧
      merged.Spec.Ports.map (fun p => (p.Port, p.Protocol, p.NodePort)) =
        [(443, "TCP", 30443), (80, "TCP", 30080), (8080, "TCP", 0)]) ∧
    (∃ merged, mergeService serviceJSON liveClusterIPService desiredFixedNodePortService
        = Except.ok merged ∧
      merged.Spec.Ports = [{ Port := 80, Protocol := "TCP", NodePort := 31000 }]) := by
  refine ⟨⟨_, by rfl, ?_, ?_⟩, ⟨_, by rfl, ?_⟩⟩
  · exact (mergeService_labels_and_ports serviceJSON liveNodePortService
      desiredNodePortService _ (GoMap.mk [("example.com/owner", "ops")]) (by rfl) (by rfl)).1
  · rw [((mergeService_labels_and_ports serviceJSON liveNodePortService
      desiredNodePortService _ (GoMap.mk [("example.com/owner", "ops")]) (by rfl)
      (by rfl)).2.1 (by rfl)).2.2.1 ⟨Or.inl (by rfl), Or.inl (by rfl)⟩]
    decide
  · exact ((mergeService_labels_and_ports serviceJSON liveClusterIPService
      desiredFixedNodePortService _ (GoMap.mk []) (by rfl) (by rfl)).2.1 (by rfl)).2.2.2
      (by decide)
/-- C13 as stated fails, in both halves: in the pass of the example reconciler the master
ensurer returns `done = false` and the volume-server ensurer, the next role, is invoked all
the same; the volume-server ensurer returns `done = true` and the filer ensurer, the next
role, is not invoked. -/
theorem Reconcile_done_flag_reversed :
    (volumeStopsReconciler.ensureMaster gatewayRecord []).1.1 = false ∧
    Step.ensureVolumeServers ∈
      (Reconcile volumeStopsReconciler { Namespace := "default", Name := "seaweed" }
        []).invoked.map Invocation.step ∧
    (volumeStopsReconciler.ensureVolumeServers gatewayRecord [Step.ensureMaster]).1.1 = true ∧
    Step.ensureFilerServers ∉
      (Reconcile volumeStopsReconciler { Namespace := "default", Name := "seaweed" }
        []).invoked.map Invocation.step := by
  refine ⟨by rfl, by decide, by rfl, by decide⟩

/-- C13, amended. Once the record is found: when a role ensurer returns `done = true`,
`Reconcile` stops at that role, that is the role is the last one invoked in the pass, its
next role is not invoked, and the pass returns its result and error; when a role ensurer
returns `done = false`, `Reconcile` proceeds to the next role, in the order master, volume
servers, filer, S3 gateway (when enabled), ingress. `ensureS3Gateway` applies the same rule
to its service, secret and deployment ensurers: it runs the service ensurer; when that one
returns `done = true` it returns what it returned, otherwise it runs the secret ensurer on
the state the service ensurer left; when that one returns `done = true` it returns what it
returned, otherwise it runs the deployment ensurer on the state the secret ensurer left and
returns what it returned. -/
theorem Reconcile_done_flag {σ : Type} (r : SeaweedReconciler σ) (req : ObjectKey) (s s0 : σ)
    (seaweedCR : Seaweed) (res0 : Result) (err0 : Option Err)
    (hfound : findSeaweedCustomResourceInstance r req s
      = ((some seaweedCR, false, res0, err0), s0)) :
    (∀ x ∈ (Reconcile r req s).invoked, x.done = true →
      (Reconcile r req s).invoked.getLast? = some x ∧
      (Reconcile r req s).result = x.result ∧ (Reconcile r req s).err = x.err ∧
      ∀ n, nextRole seaweedCR.Spec.Gateway.Enabled x.step = some n →
        n ∉ (Reconcile r req s).invoked.map Invocation.step) ∧
    (∀ x ∈ (Reconcile r req s).invoked, x.done = false →
      ∀ n, nextRole seaweedCR.Spec.Gateway.Enabled x.step = some n →
        n ∈ (Reconcile r req s).invoked.map Invocation.step) ∧
    (∀ s3, ((ensureS3Gateway r seaweedCR s3).2.2.map Invocation.step).head?
        = some Step.ensureGatewayService ∧
      (∀ x ∈ (ensureS3Gateway r seaweedCR s3).2.2.dropLast, x.done = false) ∧
      ∃ x, (ensureS3Gateway r seaweedCR s3).2.2.getLast? = some x ∧
        (ensureS3Gateway r seaweedCR s3).1 = (x.done, x.result, x.err)) ∧
    (∀ s3, (∀ x ∈ (ensureS3Gateway r seaweedCR s3).2.2, x.done = true →
        (ensureS3Gateway r seaweedCR s3).2.2.getLast? = some x ∧
        (ensureS3Gateway r seaweedCR s3).1 = (x.done, x.result, x.err) ∧
        ∀ n, nextGatewayEnsurer x.step = some n →
          n ∉ (ensureS3Gateway r seaweedCR s3).2.2.map Invocation.step) ∧
      (∀ x ∈ (ensureS3Gateway r seaweedCR s3).2.2, x.done = false →
        ∀ n, nextGatewayEnsurer x.step = some n →
          n ∈ (ensureS3Gateway r seaweedCR s3).2.2.map Invocation.step)) ∧
    (∀ (s3 sa sb sc : σ) (a b c : EnsureResult),
      r.ensureGatewayService seaweedCR s3 = (a, sa) →
      r.ensureGatewaySecret seaweedCR sa = (b, sb) →
      r.ensureGatewayDeployment seaweedCR sb = (c, sc) →
      ensureS3Gateway r seaweedCR s3 =
        if a.1 then (a, sa, [recorded Step.ensureGatewayService a])
        else if b.1 then
          (b, sb, [recorded Step.ensureGatewayService a, recorded Step.ensureGatewaySecret b])
        else
          (c, sc, [recorded Step.ensureGatewayService a, recorded Step.ensureGatewaySecret b,
            recorded Step.ensureGatewayDeployment c])) := by
  refine ⟨?_, ?_, fun s3 => ensureS3Gateway_trace r seaweedCR s3,
    fun s3 => ensureS3Gateway_rule r seaweedCR s3,
    fun s3 sa sb sc a b c ha hb hc => ensureS3Gateway_eq r seaweedCR s3 sa sb sc a b c ha hb hc⟩
  · refine Reconcile_found_cases r req s s0 seaweedCR res0 err0
      (fun p => ∀ x ∈ p.invoked, x.done = true →
        p.invoked.getLast? = some x ∧ p.result = x.result ∧ p.err = x.err ∧
        ∀ n, nextRole seaweedCR.Spec.Gateway.Enabled x.step = some n →
          n ∉ p.invoked.map Invocation.step) hfound ?_ ?_ ?_ ?_ ?_ ?_ ?_ ?_
    all_goals intros
    all_goals simp_all [nextRole]
    all_goals split <;> simp
  · refine Reconcile_found_cases r req s s0 seaweedCR res0 err0
      (fun p => ∀ x ∈ p.invoked, x.done = false →
        ∀ n, nextRole seaweedCR.Spec.Gateway.Enabled x.step = some n →
          n ∈ p.invoked.map Invocation.step) hfound ?_ ?_ ?_ ?_ ?_ ?_ ?_ ?_
    all_goals intros
    all_goals simp_all [nextRole]

/-- C13, amended, at the example reconcilers: the master ensurer returned `done = false`
and the volume-server ensurer was invoked; the volume-server ensurer returned
`done = true`, is the last ensurer of the pass, and the pass returns its error; and in
`ensureS3Gateway` the service ensurer returned `done = false` and the secret ensurer was
invoked, and so was the deployment ensurer, on the state the first two left. -/
theorem Reconcile_done_flag_witness :
    findSeaweedCustomResourceInstance volumeStopsReconciler
        { Namespace := "default", Name := "seaweed" } []
      = ((some gatewayRecord, false, {}, none), []) ∧
    Step.ensureVolumeServers ∈
      (Reconcile volumeStopsReconciler { Namespace := "default", Name := "seaweed" }
        []).invoked.map Invocation.step ∧
    (Reconcile volumeStopsReconciler { Namespace := "default", Name := "seaweed" }
        []).invoked.getLast?
      = some (Invocation.mk Step.ensureVolumeServers true {}
          (some (Err.other "volume servers not ready"))) ∧
    (Reconcile volumeStopsReconciler { Namespace := "default", Name := "seaweed" } []).err
      = some (Err.other "volume servers not ready") ∧
    Step.ensureGatewaySecret ∈
      (ensureS3Gateway volumeStopsReconciler gatewayRecord []).2.2.map Invocation.step ∧
    (ensureS3Gateway volumeStopsReconciler gatewayRecord []).2.1
      = [Step.ensureGatewayService, Step.ensureGatewaySecret, Step.ensureGatewayDeployment] :=
  ⟨by rfl,
    (Reconcile_done_flag volumeStopsReconciler { Namespace := "default", Name := "seaweed" }
      [] [] gatewayRecord {} none (by rfl)).2.1
      (Invocation.mk Step.ensureMaster false {} none) (by decide) (by rfl)
      Step.ensureVolumeServers (by rfl),
    ((Reconcile_done_flag volumeStopsReconciler { Namespace := "default", Name := "seaweed" }
      [] [] gatewayRecord {} none (by rfl)).1
      (Invocation.mk Step.ensureVolumeServers true {}
        (some (Err.other "volume servers not ready"))) (by decide) (by rfl)).1,
    ((Reconcile_done_flag volumeStopsReconciler { Namespace := "default", Name := "seaweed" }
      [] [] gatewayRecord {} none (by rfl)).1
      (Invocation.mk Step.ensureVolumeServers true {}
        (some (Err.other "volume servers not ready"))) (by decide) (by rfl)).2.2.1,
    ((Reconcile_done_flag volumeStopsReconciler { Namespace := "default", Name := "seaweed" }
      [] [] gatewayRecord {} none (by rfl)).2.2.2.1 []).2
      (Invocation.mk Step.ensureGatewayService false {} none) (by decide) (by rfl)
      Step.ensureGatewaySecret (by rfl),
    by rfl⟩
/-- C14. Access-gateway toggle: in a pass where the record is found and the master,
volume-server and filer ensurers let the pass continue, `ensureS3Gateway` is invoked if and
only if `Spec.Gateway.Enabled` is true, and then it starts with the gateway's service
ensurer; when it is false no gateway ensurer is invoked, the ingress ensurer is invoked,
on the very state the filer ensurer left, and its state is the final state of the pass. -/
theorem Reconcile_gateway_toggle {σ : Type} (r : SeaweedReconciler σ) (req : ObjectKey)
    (s s0 s1 s2 s3 : σ) (seaweedCR : Seaweed) (res0 res1 res2 res3 : Result)
    (err0 e1 e2 e3 : Option Err)
    (hfound : findSeaweedCustomResourceInstance r req s
      = ((some seaweedCR, false, res0, err0), s0))
    (h1 : r.ensureMaster seaweedCR s0 = ((false, res1, e1), s1))
    (h2 : r.ensureVolumeServers seaweedCR s1 = ((false, res2, e2), s2))
    (h3 : r.ensureFilerServers seaweedCR s2 = ((false, res3, e3), s3)) :
    (Step.ensureS3Gateway ∈ (Reconcile r req s).invoked.map Invocation.step ↔
      seaweedCR.Spec.Gateway.Enabled = true) ∧
    (seaweedCR.Spec.Gateway.Enabled = true →
      (Reconcile r req s).gateway = (ensureS3Gateway r seaweedCR s3).2.2 ∧
      ((Reconcile r req s).gateway.map Invocation.step).head?
        = some Step.ensureGatewayService) ∧
    (seaweedCR.Spec.Gateway.Enabled = false →
      (Reconcile r req s).gateway = [] ∧
      Step.ensureSeaweedIngress ∈ (Reconcile r req s).invoked.map Invocation.step ∧
      (Reconcile r req s).store = (r.ensureSeaweedIngress seaweedCR s3).2) := by
  have hhead := (ensureS3Gateway_trace r seaweedCR s3).1
  refine Reconcile_found_cases r req s s0 seaweedCR res0 err0
    (fun p => (Step.ensureS3Gateway ∈ p.invoked.map Invocation.step ↔
        seaweedCR.Spec.Gateway.Enabled = true) ∧
      (seaweedCR.Spec.Gateway.Enabled = true →
        p.gateway = (ensureS3Gateway r seaweedCR s3).2.2 ∧
        (p.gateway.map Invocation.step).head? = some Step.ensureGatewayService) ∧
      (seaweedCR.Spec.Gateway.Enabled = false →
        p.gateway = [] ∧
        Step.ensureSeaweedIngress ∈ p.invoked.map Invocation.step ∧
        p.store = (r.ensureSeaweedIngress seaweedCR s3).2)) hfound ?_ ?_ ?_ ?_ ?_ ?_ ?_ ?_
  · intro _ _ _ h1'
    rw [h1] at h1'
    cases h1'
  · intro _ _ _ _ _ _ h1' h2'
    rw [h1] at h1'
    cases h1'
    rw [h2] at h2'
    cases h2'
  · intro _ _ _ _ _ _ _ _ _ h1' h2' h3'
    rw [h1] at h1'
    cases h1'
    rw [h2] at h2'
    cases h2'
    rw [h3] at h3'
    cases h3'
  · intro _ _ _ _ _ _ _ _ _ _ _ _ _ hE h1' h2' h3' h4
    rw [h1] at h1'
    cases h1'
    rw [h2] at h2'
    cases h2'
    rw [h3] at h3'
    cases h3'
    rw [h4] at hhead
    simp_all
  · intro _ _ _ _ _ _ _ _ _ _ _ _ _ _ _ _ hE h1' h2' h3' h4 h5
    rw [h1] at h1'
    cases h1'
    rw [h2] at h2'
    cases h2'
    rw [h3] at h3'
    cases h3'
    rw [h4] at hhead
    simp_all
  · intro _ _ _ _ _ _ _ _ _ _ _ _ _ _ _ _ hE h1' h2' h3' h4 h5
    rw [h1] at h1'
    cases h1'
    rw [h2] at h2'
    cases h2'
    rw [h3] at h3'
    cases h3'
    rw [h4] at hhead
    simp_all
  · intro _ _ _ _ _ _ _ _ _ _ _ _ hE h1' h2' h3' h5
    rw [h1] at h1'
    cases h1'
    rw [h2] at h2'
    cases h2'
    rw [h3] at h3'
    cases h3'
    simp_all
  · intro _ _ _ _ _ _ _ _ _ _ _ _ hE h1' h2' h3' h5
    rw [h1] at h1'
    cases h1'
    rw [h2] at h2'
    cases h2'
    rw [h3] at h3'
    cases h3'
    simp_all

/-- C14 at a reconciler whose ensurers all let the pass continue, with the gateway
disabled: no gateway ensurer runs, the ingress ensurer does, and the state shows the
master, volume-server, filer and ingress ensurers only. -/
theorem Reconcile_gateway_toggle_witness :
    gatewayOffRecord.Spec.Gateway.Enabled = false ∧
    (Reconcile (passingReconciler gatewayOffRecord) { Namespace := "default", Name := "seaweed" }
      []).gateway = [] ∧
    Step.ensureSeaweedIngress ∈
      (Reconcile (passingReconciler gatewayOffRecord)
        { Namespace := "default", Name := "seaweed" } []).invoked.map Invocation.step ∧
    (Reconcile (passingReconciler gatewayOffRecord) { Namespace := "default", Name := "seaweed" }
      []).store = [Step.ensureMaster, Step.ensureVolumeServers, Step.ensureFilerServers,
        Step.ensureSeaweedIngress] :=
  ⟨by rfl,
    (Reconcile_gateway_toggle (passingReconciler gatewayOffRecord)
      { Namespace := "default", Name := "seaweed" } [] [] [Step.ensureMaster]
      [Step.ensureMaster, Step.ensureVolumeServers]
      [Step.ensureMaster, Step.ensureVolumeServers, Step.ensureFilerServers]
      gatewayOffRecord {} {} {} {} none none none none
      (by rfl) (by rfl) (by rfl) (by rfl)).2.2 (by rfl)⟩
/-- C15. Terminal state: whenever the record is found and no invoked role ensurer stops
the pass, `Reconcile` returns a nil error and a result that only sets `RequeueAfter`, to
five seconds, whether the gateway is enabled or not and whatever the ensurers did to the
cluster state; the maintenance step is not among the invoked steps, and replacing the
maintenance method by any other changes nothing of what `Reconcile` returns. -/
theorem Reconcile_terminal {σ : Type} (r : SeaweedReconciler σ) (req : ObjectKey) (s s0 : σ)
    (seaweedCR : Seaweed) (res0 : Result) (err0 : Option Err)
    (hfound : findSeaweedCustomResourceInstance r req s
      = ((some seaweedCR, false, res0, err0), s0))
    (hgo : ∀ x ∈ (Reconcile r req s).invoked, x.done = false) :
    (Reconcile r req s).err = none ∧
    (Reconcile r req s).result = { Requeue := false, RequeueAfter := 5 * Second } ∧
    (Reconcile r req s).result.RequeueAfter = 5000000000 ∧
    Step.maintenance ∉ (Reconcile r req s).invoked.map Invocation.step ∧
    ∀ maintenance : Ensurer σ,
      Reconcile { r with maintenance := maintenance } req s = Reconcile r req s := by
  have hmain : (∀ x ∈ (Reconcile r req s).invoked, x.done = false) →
      (Reconcile r req s).err = none ∧
      (Reconcile r req s).result = { Requeue := false, RequeueAfter := 5 * Second } ∧
      (Reconcile r req s).result.RequeueAfter = 5000000000 ∧
      Step.maintenance ∉ (Reconcile r req s).invoked.map Invocation.step := by
    refine Reconcile_found_cases r req s s0 seaweedCR res0 err0
      (fun p => (∀ x ∈ p.invoked, x.done = false) →
        p.err = none ∧ p.result = { Requeue := false, RequeueAfter := 5 * Second } ∧
        p.result.RequeueAfter = 5000000000 ∧
        Step.maintenance ∉ p.invoked.map Invocation.step) hfound ?_ ?_ ?_ ?_ ?_ ?_ ?_ ?_
    all_goals intros
    all_goals simp_all [Second]
  exact ⟨(hmain hgo).1, (hmain hgo).2.1, (hmain hgo).2.2.1, (hmain hgo).2.2.2,
    fun _ => rfl⟩

/-- C15 at a reconciler whose ensurers all let the pass continue, with the gateway
enabled: every ensurer ran, none stopped the pass, the error is nil and the result asks
for a requeue after five seconds; the maintenance step left no trace in the state. -/
theorem Reconcile_terminal_witness :
    (Reconcile (passingReconciler gatewayRecord) { Namespace := "default", Name := "seaweed" }
      []).store = [Step.ensureMaster, Step.ensureVolumeServers, Step.ensureFilerServers,
        Step.ensureGatewayService, Step.ensureGatewaySecret, Step.ensureGatewayDeployment,
        Step.ensureSeaweedIngress] ∧
    (Reconcile (passingReconciler gatewayRecord) { Namespace := "default", Name := "seaweed" }
      []).err = none ∧
    (Reconcile (passingReconciler gatewayRecord) { Namespace := "default", Name := "seaweed" }
      []).result.RequeueAfter = 5000000000 :=
  ⟨by rfl,
    (Reconcile_terminal (passingReconciler gatewayRecord)
      { Namespace := "default", Name := "seaweed" } [] [] gatewayRecord {} none (by rfl)
      (by decide)).1,
    (Reconcile_terminal (passingReconciler gatewayRecord)
      { Namespace := "default", Name := "seaweed" } [] [] gatewayRecord {} none (by rfl)
      (by decide)).2.2.1⟩
/-- C16. Record lookup: when the fetch of the record fails with not-found, `Reconcile`
returns a nil error and a requeue after five seconds and invokes no ensurer; when the
fetch fails with any other error, `Reconcile` returns that error with an empty result and
invokes no ensurer; in both cases the state is as the fetch left it. The master ensurer is
invoked exactly when the fetch succeeds, and then it is the first ensurer invoked, on the
fetched record and the state the fetch left. -/
theorem Reconcile_record_lookup {σ : Type} (r : SeaweedReconciler σ) (req : ObjectKey) (s : σ) :
    (∀ e, (r.Get req s).2.1 = some e → IsNotFound (some e) = true →
      (Reconcile r req s).err = none ∧
      (Reconcile r req s).result = { Requeue := false, RequeueAfter := 5 * Second } ∧
      (Reconcile r req s).result.RequeueAfter = 5000000000 ∧
      (Reconcile r req s).invoked = [] ∧ (Reconcile r req s).gateway = [] ∧
      (Reconcile r req s).store = (r.Get req s).2.2) ∧
    (∀ e, (r.Get req s).2.1 = some e → IsNotFound (some e) = false →
      (Reconcile r req s).err = some e ∧
      (Reconcile r req s).result = { Requeue := false, RequeueAfter := 0 } ∧
      (Reconcile r req s).invoked = [] ∧ (Reconcile r req s).gateway = [] ∧
      (Reconcile r req s).store = (r.Get req s).2.2) ∧
    (Step.ensureMaster ∈ (Reconcile r req s).invoked.map Invocation.step ↔
      (r.Get req s).2.1 = none) ∧
    ((r.Get req s).2.1 = none →
      (Reconcile r req s).invoked.head? = some
        (Invocation.mk Step.ensureMaster
          (r.ensureMaster (r.Get req s).1 (r.Get req s).2.2).1.1
          (r.ensureMaster (r.Get req s).1 (r.Get req s).2.2).1.2.1
          (r.ensureMaster (r.Get req s).1 (r.Get req s).2.2).1.2.2)) := by
  rcases hg : r.Get req s with ⟨seaweedCR, err, s0⟩
  cases err with
  | some e =>
    cases hnf : IsNotFound (some e) <;>
      simp [Reconcile, findSeaweedCustomResourceInstance, hg, hnf, Second]
  | none =>
    have hfound : findSeaweedCustomResourceInstance r req s
        = ((some seaweedCR, false, {}, none), s0) := by
      simp [findSeaweedCustomResourceInstance, hg]
    simp only [false_implies, implies_true, true_and, reduceCtorEq, forall_const, true_implies,
      iff_true]
    refine Reconcile_found_cases r req s s0 seaweedCR {} none
      (fun p => Step.ensureMaster ∈ p.invoked.map Invocation.step ∧
        p.invoked.head? = some
          (Invocation.mk Step.ensureMaster (r.ensureMaster seaweedCR s0).1.1
            (r.ensureMaster seaweedCR s0).1.2.1 (r.ensureMaster seaweedCR s0).1.2.2))
      hfound ?_ ?_ ?_ ?_ ?_ ?_ ?_ ?_
    all_goals intros
    all_goals simp_all

/-- C16 at two reconcilers whose fetch fails: with not-found the pass returns a nil error
and a requeue after five seconds; with a transport error it returns that error; in both no
ensurer touched the state. -/
theorem Reconcile_record_lookup_witness :
    ((Reconcile (failingGetReconciler (Err.status StatusReason.NotFound "not found"))
        { Namespace := "default", Name := "seaweed" } []).err = none ∧
      (Reconcile (failingGetReconciler (Err.status StatusReason.NotFound "not found"))
        { Namespace := "default", Name := "seaweed" } []).result.RequeueAfter = 5000000000 ∧
      (Reconcile (failingGetReconciler (Err.status StatusReason.NotFound "not found"))
        { Namespace := "default", Name := "seaweed" } []).store = []) ∧
    ((Reconcile (failingGetReconciler (Err.other "connection refused"))
        { Namespace := "default", Name := "seaweed" } []).err
        = some (Err.other "connection refused") ∧
      (Reconcile (failingGetReconciler (Err.other "connection refused"))
        { Namespace := "default", Name := "seaweed" } []).store = []) :=
  ⟨⟨((Reconcile_record_lookup
        (failingGetReconciler (Err.status StatusReason.NotFound "not found"))
        { Namespace := "default", Name := "seaweed" } []).1 _ (by rfl) (by rfl)).1,
      ((Reconcile_record_lookup
        (failingGetReconciler (Err.status StatusReason.NotFound "not found"))
        { Namespace := "default", Name := "seaweed" } []).1 _ (by rfl) (by rfl)).2.2.1,
      ((Reconcile_record_lookup
        (failingGetReconciler (Err.status StatusReason.NotFound "not found"))
        { Namespace := "default", Name := "seaweed" } []).1 _ (by rfl) (by rfl)).2.2.2.2.2⟩,
    ⟨((Reconcile_record_lookup (failingGetReconciler (Err.other "connection refused"))
        { Namespace := "default", Name := "seaweed" } []).2.1 _ (by rfl) (by rfl)).1,
      ((Reconcile_record_lookup (failingGetReconciler (Err.other "connection refused"))
        { Namespace := "default", Name := "seaweed" } []).2.1 _ (by rfl) (by rfl)).2.2.2.2⟩⟩
/-- C17. Monotonic convergence of the service merge: let the desired service carry no
last-applied-configuration annotation of its own, and let the encoding of its spec decode
to a spec semantically equal to it. Whenever the merge of desired into a live service
succeeds with result `m`, the oracle `ServiceEqual(d, m)` answers true, and merging desired
into `m` again succeeds with a result semantically equal to `m`. -/
theorem mergeService_monotone (J : JSON ServiceSpec) (existing desired m : Service)
    (hno : desired.Annotations.get LastAppliedConfigAnnotation = none)
    (hrt : ∀ b, J.Marshal desired.Spec = Except.ok b → ∃ y, J.Unmarshal b = Except.ok y ∧
      DeepEqual (GoValue.ServiceSpec y) (GoValue.ServiceSpec desired.Spec) = true)
    (hm : mergeService J existing desired = Except.ok m) :
    ServiceEqual J desired m = Except.ok true ∧
    ∃ m2, mergeService J m desired = Except.ok m2 ∧
      DeepEqual (GoValue.ServicePtr m) (GoValue.ServicePtr m2) = true :=
  ⟨mergeService_converged J existing desired m hrt hm,
    mergeService_stable J existing desired m hno hrt hm⟩

/-- C17 at the live and desired NodePort services: the first merge takes the desired spec
and the node ports of the live service, the oracle then answers true, and a second merge
changes nothing. -/
theorem mergeService_monotone_witness :
    desiredNodePortService.Annotations.get LastAppliedConfigAnnotation = none ∧
    serviceJSON.Unmarshal "ServiceSpec NodePort " = Except.ok desiredNodePortService.Spec ∧
    ∃ m, mergeService serviceJSON liveNodePortService desiredNodePortService = Except.ok m ∧
      ServiceEqual serviceJSON desiredNodePortService m = Except.ok true ∧
      ∃ m2, mergeService serviceJSON m desiredNodePortService = Except.ok m2 ∧
        DeepEqual (GoValue.ServicePtr m) (GoValue.ServicePtr m2) = true :=
  ⟨by rfl, by rfl, _, by rfl,
    mergeService_monotone serviceJSON liveNodePortService desiredNodePortService _ (by rfl)
      (fun b hb => by
        cases hb
        exact ⟨desiredNodePortService.Spec, by rfl, by rfl⟩)
      (by rfl)⟩
end SeaweedOperator
